import Mathlib

/-!
Verification of the Aselenium session/service core against its specification.

The definitions below are a shallow embedding of the Python sources
`aselenium/session.py` and `aselenium/service.py`.  Python dicts are
modelled as insertion-ordered association lists, awaited remote commands
as explicit oracle functions supplying the response of each round trip, and
exceptions as `Except` results.  The error-class taxonomy (module
`aselenium/errors.py` is not part of the sources) is modelled from the
spec where it matters and noted at the point of use.
-/

namespace Aselenium

/-! ## Python dict as insertion-ordered association list -/

/-- Python dict lookup `d.get(k)` over an insertion-ordered association list. -/
def dget {α : Type} : List (String × α) → String → Option α
  | [], _ => none
  | (k', v) :: t, k => if k' = k then some v else dget t k

/-- Python `k in d`. -/
def dmem {α : Type} (d : List (String × α)) (k : String) : Bool :=
  (dget d k).isSome

/-- Python `d[k] = v`: update in place when the key exists, else append. -/
def dset {α : Type} : List (String × α) → String → α → List (String × α)
  | [], k, v => [(k, v)]
  | (k', v') :: t, k, v => if k' = k then (k', v) :: t else (k', v') :: dset t k v

/-- Python `d.pop(k)` (the removal part): drop the binding of `k`. -/
def dpop {α : Type} : List (String × α) → String → List (String × α)
  | [], _ => []
  | (k', v') :: t, k => if k' = k then t else (k', v') :: dpop t k

/-- Keys of the dict, in insertion order. -/
def dkeys {α : Type} (d : List (String × α)) : List String :=
  d.map Prod.fst

/-- Values of the dict, in insertion order (Python `list(d.values())`). -/
def dvalues {α : Type} (d : List (String × α)) : List α :=
  d.map Prod.snd

/-- A dict is well formed when no key occurs twice (always true of Python dicts). -/
def NodupK {α : Type} (d : List (String × α)) : Prop :=
  (d.map Prod.fst).Nodup

instance {α : Type} (d : List (String × α)) : Decidable (NodupK d) := by
  unfold NodupK; infer_instance

theorem dget_cons_self {α : Type} (k : String) (v : α) (t : List (String × α)) :
    dget ((k, v) :: t) k = some v := by
  show (if k = k then some v else dget t k) = some v
  rw [if_pos rfl]

theorem dget_cons_ne {α : Type} (k₀ k : String) (v : α) (t : List (String × α))
    (h : ¬k₀ = k) : dget ((k₀, v) :: t) k = dget t k := by
  simp only [dget]; rw [if_neg h]

theorem dset_cons_self {α : Type} (k : String) (v₀ v : α) (t : List (String × α)) :
    dset ((k, v₀) :: t) k v = (k, v) :: t := by
  show (if k = k then (k, v) :: t else (k, v₀) :: dset t k v) = (k, v) :: t
  rw [if_pos rfl]

theorem dset_cons_ne {α : Type} (k₀ k : String) (v₀ v : α) (t : List (String × α))
    (h : ¬k₀ = k) : dset ((k₀, v₀) :: t) k v = (k₀, v₀) :: dset t k v := by
  simp only [dset]; rw [if_neg h]

theorem dpop_cons_self {α : Type} (k : String) (v : α) (t : List (String × α)) :
    dpop ((k, v) :: t) k = t := by
  show (if k = k then t else (k, v) :: dpop t k) = t
  rw [if_pos rfl]

theorem dpop_cons_ne {α : Type} (k₀ k : String) (v : α) (t : List (String × α))
    (h : ¬k₀ = k) : dpop ((k₀, v) :: t) k = (k₀, v) :: dpop t k := by
  simp only [dpop]; rw [if_neg h]

theorem dget_dset_self {α : Type} (d : List (String × α)) (k : String) (v : α) :
    dget (dset d k v) k = some v := by
  induction d with
  | nil => simp [dset, dget]
  | cons h t ih =>
    obtain ⟨k', v'⟩ := h
    by_cases hk : k' = k
    · subst hk; rw [dset_cons_self, dget_cons_self]
    · rw [dset_cons_ne _ _ _ _ _ hk, dget_cons_ne _ _ _ _ hk, ih]

theorem dget_dset_ne {α : Type} (d : List (String × α)) (k k' : String) (v : α)
    (h : k' ≠ k) : dget (dset d k v) k' = dget d k' := by
  have hne : ¬k = k' := fun he => h he.symm
  induction d with
  | nil =>
    show dget [(k, v)] k' = dget [] k'
    rw [dget_cons_ne _ _ _ _ hne]
  | cons hd t ih =>
    obtain ⟨k₀, v₀⟩ := hd
    by_cases hk : k₀ = k
    · subst hk
      rw [dset_cons_self, dget_cons_ne _ _ _ _ hne, dget_cons_ne _ _ _ _ hne]
    · by_cases hk' : k₀ = k'
      · subst hk'
        rw [dset_cons_ne _ _ _ _ _ hk, dget_cons_self, dget_cons_self]
      · rw [dset_cons_ne _ _ _ _ _ hk, dget_cons_ne _ _ _ _ hk',
          dget_cons_ne _ _ _ _ hk', ih]

theorem dget_dpop_ne {α : Type} (d : List (String × α)) (k k' : String)
    (h : k' ≠ k) : dget (dpop d k) k' = dget d k' := by
  induction d with
  | nil => rfl
  | cons hd t ih =>
    obtain ⟨k₀, v₀⟩ := hd
    by_cases hk : k₀ = k
    · subst hk
      have hne : ¬k₀ = k' := fun he => h he.symm
      rw [dpop_cons_self, dget_cons_ne _ _ _ _ hne]
    · by_cases hk' : k₀ = k'
      · subst hk'
        rw [dpop_cons_ne _ _ _ _ hk, dget_cons_self, dget_cons_self]
      · rw [dpop_cons_ne _ _ _ _ hk, dget_cons_ne _ _ _ _ hk',
          dget_cons_ne _ _ _ _ hk', ih]

theorem dget_mem_keys {α : Type} (d : List (String × α)) (k : String) (v : α)
    (h : dget d k = some v) : k ∈ d.map Prod.fst := by
  induction d with
  | nil => simp [dget] at h
  | cons hd t ih =>
    obtain ⟨k₀, v₀⟩ := hd
    by_cases hk : k₀ = k
    · simp [hk]
    · rw [dget_cons_ne _ _ _ _ hk] at h
      simp [ih h]

theorem dget_dpop_self {α : Type} (d : List (String × α)) (k : String)
    (hNd : NodupK d) : dget (dpop d k) k = none := by
  induction d with
  | nil => rfl
  | cons hd t ih =>
    obtain ⟨k₀, v₀⟩ := hd
    simp only [NodupK, List.map_cons, List.nodup_cons] at hNd
    by_cases hk : k₀ = k
    · subst hk
      rw [dpop_cons_self]
      cases hget : dget t k₀ with
      | none => rfl
      | some v => exact absurd (dget_mem_keys t k₀ v hget) hNd.1
    · rw [dpop_cons_ne _ _ _ _ hk, dget_cons_ne _ _ _ _ hk, ih hNd.2]

theorem keys_dpop_sublist {α : Type} (d : List (String × α)) (k : String) :
    ((dpop d k).map Prod.fst).Sublist (d.map Prod.fst) := by
  induction d with
  | nil => simp [dpop]
  | cons hd t ih =>
    obtain ⟨k₀, v₀⟩ := hd
    by_cases hk : k₀ = k
    · rw [hk, dpop_cons_self, List.map_cons]
      exact List.sublist_cons_self _ _
    · rw [dpop_cons_ne _ _ _ _ hk, List.map_cons, List.map_cons]
      exact ih.cons₂ k₀

theorem nodupK_dpop {α : Type} (d : List (String × α)) (k : String)
    (hNd : NodupK d) : NodupK (dpop d k) :=
  List.Nodup.sublist (keys_dpop_sublist d k) hNd

theorem mem_keys_dset {α : Type} (d : List (String × α)) (k : String) (v : α)
    (k' : String) : k' ∈ (dset d k v).map Prod.fst ↔ k' ∈ d.map Prod.fst ∨ k' = k := by
  induction d with
  | nil =>
    show k' ∈ [(k, v)].map Prod.fst ↔ _
    simp [eq_comm]
  | cons hd t ih =>
    obtain ⟨k₀, v₀⟩ := hd
    by_cases hk : k₀ = k
    · subst hk
      rw [dset_cons_self]
      simp only [List.map_cons, List.mem_cons]
      constructor
      · intro hm
        rcases hm with hm | hm
        · exact Or.inr hm
        · exact Or.inl (Or.inr hm)
      · intro hm
        rcases hm with hm | hm
        · rcases hm with hm | hm
          · exact Or.inl hm
          · exact Or.inr hm
        · exact Or.inl hm
    · rw [dset_cons_ne _ _ _ _ _ hk]
      simp only [List.map_cons, List.mem_cons, ih]
      tauto

theorem nodupK_dset {α : Type} (d : List (String × α)) (k : String) (v : α)
    (hNd : NodupK d) : NodupK (dset d k v) := by
  induction d with
  | nil => simp [dset, NodupK]
  | cons hd t ih =>
    obtain ⟨k₀, v₀⟩ := hd
    simp only [NodupK, List.map_cons, List.nodup_cons] at hNd
    by_cases hk : k₀ = k
    · subst hk
      rw [dset_cons_self]
      simp only [NodupK, List.map_cons, List.nodup_cons]
      exact hNd
    · have hmem : k₀ ∉ (dset t k v).map Prod.fst := by
        rw [mem_keys_dset]
        push_neg
        exact ⟨hNd.1, hk⟩
      rw [dset_cons_ne _ _ _ _ _ hk]
      simp only [NodupK, List.map_cons, List.nodup_cons]
      exact ⟨hmem, ih hNd.2⟩

theorem dmem_iff_dget {α : Type} (d : List (String × α)) (k : String) :
    dmem d k = true ↔ ∃ v, dget d k = some v := by
  unfold dmem
  cases dget d k <;> simp

/-! ## Errors

The Aselenium error classes live in `aselenium/errors.py`, which is not part
of the given sources.  Modelled from the spec: the connection layer maps
remote error codes to a fixed taxonomy; the client-side force timeout
(`SessionTimeoutError`) is distinct from the protocol-level page-load
timeout (`WebDriverTimeoutError`), and neither is a subclass of the other
(the `load`/`refresh` docstrings state that only the latter is retried while
the former propagates immediately). -/

inductive Err where
  | invalidArgument
  | scriptNotFound
  | cmdNotFound
  | invalidSessionId
  | invalidResponse
  | windowNotFound
  | webdriverTimeout
  | sessionTimeout
  | serviceStop
  | unknown
deriving Repr, DecidableEq

/-! ## C10: BaseService.timeout setter (`service.py`) -/

/-- A dynamically typed Python value, as far as the timeout setter can see it.
Finite floats are modelled as rationals; `nan` is the IEEE float produced by
the Python expression `float("nan")`, for which `isinstance(x, (int, float))`
holds while every order comparison evaluates to false. -/
inductive PyVal where
  | int (i : Int)
  | bool (b : Bool)
  | float (q : Rat)
  | nan
  | str (s : String)
  | none
deriving Repr, DecidableEq

/-- Python `isinstance(x, (int, float))`; note that `bool` is a subclass of
`int` and that NaN is a float. -/
def PyVal.isNumber : PyVal → Bool
  | .int _ => true
  | .bool _ => true
  | .float _ => true
  | .nan => true
  | _ => false

/-- Python comparison `x <= 0` on a number (`True == 1`, `False == 0`);
every comparison with NaN is false.  In the setter this comparison is reached
only after the isinstance test, so its value on non-numbers is irrelevant. -/
def PyVal.leZero : PyVal → Bool
  | .int i => decide (i ≤ 0)
  | .bool b => !b
  | .float q => decide (q ≤ 0)
  | _ => false

/-- Python comparison `x > 0` (`True == 1`, `False == 0`); false for NaN and
for non-numbers. -/
def PyVal.isPositive : PyVal → Bool
  | .int i => decide (0 < i)
  | .bool b => b
  | .float q => decide (0 < q)
  | _ => false

/-- Setter of `BaseService.timeout`:
`if not isinstance(timeout, (int, float)) or timeout <= 0: self._timeout = 10
else: self._timeout = timeout`.  The body contains no raise statement, which
the total return type mirrors. -/
def BaseService.setTimeout (timeout : PyVal) : PyVal :=
  if timeout.isNumber = false ∨ timeout.leZero = true then .int 10
  else timeout

/-- A positive Python number passes the setter guard: it is a number for
which the comparison `x <= 0` is false. -/
theorem PyVal.isPositive_guard (v : PyVal) (h : v.isPositive = true) :
    v.isNumber = true ∧ v.leZero = false := by
  cases v with
  | int i =>
      simp only [PyVal.isPositive, decide_eq_true_eq] at h
      refine ⟨rfl, ?_⟩
      simp only [PyVal.leZero, decide_eq_false_iff_not]
      omega
  | bool b =>
      simp only [PyVal.isPositive] at h
      refine ⟨rfl, ?_⟩
      simp only [PyVal.leZero, h, Bool.not_true]
  | float q =>
      simp only [PyVal.isPositive, decide_eq_true_eq] at h
      refine ⟨rfl, ?_⟩
      simp only [PyVal.leZero, decide_eq_false_iff_not]
      exact not_le.mpr h
  | nan => simp [PyVal.isPositive] at h
  | str s => simp [PyVal.isPositive] at h
  | none => simp [PyVal.isPositive] at h

/-- A value that passes the setter guard is a positive number or NaN. -/
theorem PyVal.guard_pass (v : PyVal) (hn : v.isNumber = true)
    (hl : v.leZero = false) : v.isPositive = true ∨ v = .nan := by
  cases v with
  | int i =>
      left
      simp only [PyVal.leZero, decide_eq_false_iff_not] at hl
      simp only [PyVal.isPositive, decide_eq_true_eq]
      omega
  | bool b =>
      cases b
      · simp [PyVal.leZero] at hl
      · left; rfl
  | float q =>
      left
      simp only [PyVal.leZero, decide_eq_false_iff_not] at hl
      simp only [PyVal.isPositive, decide_eq_true_eq]
      exact not_le.mp hl
  | nan => right; rfl
  | str s => simp [PyVal.isNumber] at hn
  | none => simp [PyVal.isNumber] at hn

/-- C10 counterexample: at the float NaN the guard `timeout <= 0` is false
(every comparison with NaN is), so the setter stores NaN unchanged — and NaN
is not a positive number.  The stored timeout is therefore not always a
positive number, refuting the final clause of the claim. -/
theorem BaseService.setTimeout_nan_counterexample :
    BaseService.setTimeout .nan = .nan ∧
    (BaseService.setTimeout .nan).isPositive = false := by
  decide

/-- C10 amended: assigning `BaseService.timeout` never raises; a value that
is not an int or float, or for which the comparison `x <= 0` is true, is
silently replaced by the default 10; every other value — the positive
numbers, and the float NaN whose comparisons are all false — is stored
unchanged.  The stored timeout is therefore always an int or float, and it
is positive unless it is NaN. -/
theorem BaseService.setTimeout_amended (v : PyVal) :
    (BaseService.setTimeout v).isNumber = true ∧
    (v.isNumber = false ∨ v.leZero = true → BaseService.setTimeout v = .int 10) ∧
    (v.isPositive = true → BaseService.setTimeout v = v) ∧
    (v = .nan → BaseService.setTimeout v = .nan) ∧
    ((BaseService.setTimeout v).isPositive = true ∨
      BaseService.setTimeout v = .nan) := by
  by_cases hc : v.isNumber = false ∨ v.leZero = true
  · have h10 : BaseService.setTimeout v = .int 10 := by
      simp only [BaseService.setTimeout, if_pos hc]
    refine ⟨by rw [h10]; rfl, fun _ => h10, ?_, ?_, Or.inl (by rw [h10]; rfl)⟩
    · intro hp
      obtain ⟨hn, hl⟩ := PyVal.isPositive_guard v hp
      rcases hc with h | h
      · rw [hn] at h; cases h
      · rw [hl] at h; cases h
    · intro hv
      subst hv
      rcases hc with h | h
      · simp [PyVal.isNumber] at h
      · simp [PyVal.leZero] at h
  · have hcond : ¬(v.isNumber = false ∨ v.leZero = true) := hc
    have hid : BaseService.setTimeout v = v := by
      simp only [BaseService.setTimeout]
      rw [if_neg hcond]
    push_neg at hc
    obtain ⟨hn, hl⟩ := hc
    have hn' : v.isNumber = true := by
      cases hB : v.isNumber
      · exact absurd hB hn
      · rfl
    have hl' : v.leZero = false := by
      cases hB : v.leZero
      · rfl
      · exact absurd hB hl
    refine ⟨by rw [hid]; exact hn', fun h => absurd h hcond, fun _ => hid,
      fun hv => by rw [hid]; exact hv, ?_⟩
    rw [hid]
    exact PyVal.guard_pass v hn' hl'

/-- C10 witness: the amended theorem evaluated at the NaN input. -/
theorem BaseService.setTimeout_amended_witness :
    ((BaseService.setTimeout .nan).isNumber = true ∧
      ((PyVal.nan).isNumber = false ∨ (PyVal.nan).leZero = true →
        BaseService.setTimeout .nan = .int 10) ∧
      ((PyVal.nan).isPositive = true → BaseService.setTimeout .nan = .nan) ∧
      (PyVal.nan = .nan → BaseService.setTimeout .nan = .nan) ∧
      ((BaseService.setTimeout .nan).isPositive = true ∨
        BaseService.setTimeout .nan = .nan)) :=
  BaseService.setTimeout_amended .nan

/-! ## C2: load / refresh retry policy (`session.py`) -/

/-- Outcome of one awaited navigation command (`Command.GET` or
`Command.REFRESH`) as reported by the peer:
success, the protocol-level page-load timeout (`WebDriverTimeoutError`),
the client-side force timeout (`SessionTimeoutError`), or another error. -/
inductive NavOutcome where
  | ok
  | wdTimeout
  | sessionTimeout
  | otherError
deriving Repr, DecidableEq

/-- The `for _ in range(n)` retry loop shared by `Session.load` and
`Session.refresh` with `retry=True`: attempt the command; on success return;
on `WebDriverTimeoutError` remember the error and go to the next iteration;
any other exception propagates immediately.  When the loop exhausts its
iterations the remembered timeout error is raised.  `resp i` is the outcome
of attempt number `i` (0-based, counted from the start of the call); the
second component of the result is the total number of attempts made. -/
def navRetryLoop (resp : Nat → NavOutcome) : Nat → Nat → Except NavOutcome Unit × Nat
  | i, 0 => (.error .wdTimeout, i)
  | i, n + 1 =>
    match resp i with
    | .ok => (.ok (), i + 1)
    | .wdTimeout => navRetryLoop resp (i + 1) n
    | .sessionTimeout => (.error .sessionTimeout, i + 1)
    | .otherError => (.error .otherError, i + 1)

/-- `Session.load(url, timeout, retry)`: without retry a single attempt whose
error propagates; with retry the 10-iteration retry loop. -/
def Session.load (retry : Bool) (resp : Nat → NavOutcome) : Except NavOutcome Unit × Nat :=
  if !retry then
    match resp 0 with
    | .ok => (.ok (), 1)
    | e => (.error e, 1)
  else
    navRetryLoop resp 0 10

/-- `Session.refresh(timeout, retry)`: identical control flow to `load`
(the only difference in the source is the wire command sent). -/
def Session.refresh (retry : Bool) (resp : Nat → NavOutcome) : Except NavOutcome Unit × Nat :=
  if !retry then
    match resp 0 with
    | .ok => (.ok (), 1)
    | e => (.error e, 1)
  else
    navRetryLoop resp 0 10

theorem navRetryLoop_succeeds (resp : Nat → NavOutcome) :
    ∀ n N i, N < n → (∀ j, j < N → resp (i + j) = .wdTimeout) → resp (i + N) = .ok →
    navRetryLoop resp i n = (.ok (), i + N + 1) := by
  intro n
  induction n with
  | zero => intro N i h; omega
  | succ n ih =>
    intro N i hN hTO hok
    cases N with
    | zero =>
      simp only [Nat.add_zero] at hok
      simp [navRetryLoop, hok]
    | succ M =>
      have h0 : resp i = .wdTimeout := by simpa using hTO 0 (Nat.succ_pos M)
      have hrec := ih M (i + 1) (by omega)
        (fun j hj => by
          have := hTO (j + 1) (by omega)
          simpa [Nat.add_assoc, Nat.add_comm 1 j] using this)
        (by simpa [Nat.add_assoc, Nat.add_comm 1 M] using hok)
      simp only [navRetryLoop, h0]
      rw [hrec]
      congr 2
      omega

theorem navRetryLoop_allTimeout (resp : Nat → NavOutcome) :
    ∀ n i, (∀ j, j < n → resp (i + j) = .wdTimeout) →
    navRetryLoop resp i n = (.error .wdTimeout, i + n) := by
  intro n
  induction n with
  | zero => intro i _; simp [navRetryLoop]
  | succ n ih =>
    intro i hTO
    have h0 : resp i = .wdTimeout := by simpa using hTO 0 (Nat.succ_pos n)
    have hrec := ih (i + 1)
      (fun j hj => by
        have := hTO (j + 1) (by omega)
        simpa [Nat.add_assoc, Nat.add_comm 1 j] using this)
    simp only [navRetryLoop, h0]
    rw [hrec]
    congr 1
    omega

theorem navRetryLoop_fatal (resp : Nat → NavOutcome) :
    ∀ n N i, N < n → (∀ j, j < N → resp (i + j) = .wdTimeout) →
    resp (i + N) = .sessionTimeout →
    navRetryLoop resp i n = (.error .sessionTimeout, i + N + 1) := by
  intro n
  induction n with
  | zero => intro N i h; omega
  | succ n ih =>
    intro N i hN hTO hfatal
    cases N with
    | zero =>
      simp only [Nat.add_zero] at hfatal
      simp [navRetryLoop, hfatal]
    | succ M =>
      have h0 : resp i = .wdTimeout := by simpa using hTO 0 (Nat.succ_pos M)
      have hrec := ih M (i + 1) (by omega)
        (fun j hj => by
          have := hTO (j + 1) (by omega)
          simpa [Nat.add_assoc, Nat.add_comm 1 j] using this)
        (by simpa [Nat.add_assoc, Nat.add_comm 1 M] using hfatal)
      simp only [navRetryLoop, h0]
      rw [hrec]
      congr 2
      omega

/-- C2: with `retry=True`, `load` (and likewise `refresh`) succeeds when the
peer reports the protocol page-load timeout on attempts `0..N-1` (`N < 10`)
and then succeeds; makes exactly 10 attempts and raises the page-load-timeout
error when every attempt reports it; and propagates the client-side force
timeout immediately on its first occurrence, without further retries. -/
theorem Session.load_refresh_retry_policy
    (respA respB respC : Nat → NavOutcome) (N k : Nat)
    (hN : N < 10)
    (hA : ∀ j, j < N → respA j = .wdTimeout) (hAok : respA N = .ok)
    (hB : ∀ j, j < 10 → respB j = .wdTimeout)
    (hk : k < 10)
    (hC : ∀ j, j < k → respC j = .wdTimeout) (hCf : respC k = .sessionTimeout) :
    Session.load true respA = (.ok (), N + 1) ∧
    Session.refresh true respA = (.ok (), N + 1) ∧
    Session.load true respB = (.error .wdTimeout, 10) ∧
    Session.refresh true respB = (.error .wdTimeout, 10) ∧
    Session.load true respC = (.error .sessionTimeout, k + 1) ∧
    Session.refresh true respC = (.error .sessionTimeout, k + 1) := by
  have hA' := navRetryLoop_succeeds respA 10 N 0 hN
    (fun j hj => by simpa using hA j hj) (by simpa using hAok)
  have hB' := navRetryLoop_allTimeout respB 10 0 (fun j hj => by simpa using hB j hj)
  have hC' := navRetryLoop_fatal respC 10 k 0 hk
    (fun j hj => by simpa using hC j hj) (by simpa using hCf)
  simp only [Session.load, Session.refresh, Bool.not_true, Bool.false_eq_true,
    if_false, reduceIte] at *
  exact ⟨by simpa using hA', by simpa using hA', by simpa using hB',
    by simpa using hB', by simpa using hC', by simpa using hC'⟩

/-- C2 witness: a peer timing out twice then succeeding, one always timing
out, and one force-timing-out on the fourth attempt. -/
theorem Session.load_refresh_retry_policy_witness :
    Session.load true (fun i => if i < 2 then .wdTimeout else .ok) = (.ok (), 3) ∧
    Session.refresh true (fun i => if i < 2 then .wdTimeout else .ok) = (.ok (), 3) ∧
    Session.load true (fun _ => .wdTimeout) = (.error .wdTimeout, 10) ∧
    Session.refresh true (fun _ => .wdTimeout) = (.error .wdTimeout, 10) ∧
    Session.load true (fun i => if i < 3 then .wdTimeout else .sessionTimeout)
      = (.error .sessionTimeout, 4) ∧
    Session.refresh true (fun i => if i < 3 then .wdTimeout else .sessionTimeout)
      = (.error .sessionTimeout, 4) := by
  have := Session.load_refresh_retry_policy
    (fun i => if i < 2 then .wdTimeout else .ok)
    (fun _ => .wdTimeout)
    (fun i => if i < 3 then .wdTimeout else .sessionTimeout)
    2 3 (by decide)
    (fun j hj => by simp [hj]) (by decide)
    (fun j _ => rfl)
    (by decide)
    (fun j hj => by simp [hj]) (by decide)
  simpa using this

/-! ## C5: script / devtools-command cache rename (`session.py`) -/

/-- Cached JavaScript entry: `JavaScript(name, script, *args)`.  The
constructor raises `InvalidArgumentError` on an empty name or script;
arguments are kept opaque as strings. -/
structure JavaScript where
  name : String
  script : String
  args : List String
deriving Repr, DecidableEq

/-- Cached Chrome-devtools-protocol command entry: `DevToolsCMD(name, cmd, **kwargs)`. -/
structure DevToolsCMD where
  name : String
  cmd : String
  kwargs : List (String × String)
deriving Repr, DecidableEq

/-- `Session._validate_script_name`: a name must be a non-empty string
(the non-string case cannot arise for a `String`-typed argument) and must
not already be a key of the script cache; otherwise `InvalidArgumentError`. -/
def Session.validate_script_name (cache : List (String × JavaScript))
    (name : String) : Except Err String :=
  if name = "" then .error .invalidArgument
  else if dmem cache name then .error .invalidArgument
  else .ok name

/-- `Session.cache_script(name, script, *args)`: validate the name, build the
`JavaScript` (whose constructor rejects an empty script), store it under
`name`. -/
def Session.cache_script (cache : List (String × JavaScript)) (name script : String)
    (args : List String) : Except Err (List (String × JavaScript) × JavaScript) :=
  match Session.validate_script_name cache name with
  | .error e => .error e
  | .ok n =>
    if script = "" then .error .invalidArgument
    else .ok (dset cache name ⟨n, script, args⟩, ⟨n, script, args⟩)

/-- `Session.rename_script(script, new_name)`: validate the new name first,
then pop the old entry (`ScriptNotFoundError` when absent) and re-cache its
code and default arguments under the new name. -/
def Session.rename_script (cache : List (String × JavaScript))
    (script new_name : String) : Except Err (List (String × JavaScript) × JavaScript) :=
  match Session.validate_script_name cache new_name with
  | .error e => .error e
  | .ok name =>
    match dget cache script with
    | none => .error .scriptNotFound
    | some js => Session.cache_script (dpop cache script) name js.script js.args

/-- `ChromiumBaseSession._validate_cdp_cmd_name`: same shape as the script
name validator, against the CDP-command cache. -/
def Session.validate_cdp_cmd_name (cache : List (String × DevToolsCMD))
    (name : String) : Except Err String :=
  if name = "" then .error .invalidArgument
  else if dmem cache name then .error .invalidArgument
  else .ok name

/-- `ChromiumBaseSession.cache_cdp_cmd(name, cmd, **kwargs)`. -/
def Session.cache_cdp_cmd (cache : List (String × DevToolsCMD)) (name cmd : String)
    (kwargs : List (String × String)) :
    Except Err (List (String × DevToolsCMD) × DevToolsCMD) :=
  match Session.validate_cdp_cmd_name cache name with
  | .error e => .error e
  | .ok n =>
    if cmd = "" then .error .invalidArgument
    else .ok (dset cache name ⟨n, cmd, kwargs⟩, ⟨n, cmd, kwargs⟩)

/-- `ChromiumBaseSession.rename_cdp_cmd(cmd, new_name)`: validate the new
name first, then pop the old entry (`DevToolsCMDNotFoundError` when absent)
and re-cache it under the new name. -/
def Session.rename_cdp_cmd (cache : List (String × DevToolsCMD))
    (cmd new_name : String) : Except Err (List (String × DevToolsCMD) × DevToolsCMD) :=
  match Session.validate_cdp_cmd_name cache new_name with
  | .error e => .error e
  | .ok name =>
    match dget cache cmd with
    | none => .error .cmdNotFound
    | some c => Session.cache_cdp_cmd (dpop cache cmd) name c.cmd c.kwargs

/-- C5 counterexample: with scripts "a" and "b" cached, renaming "a" onto
the already-taken name "b" raises `InvalidArgumentError` (the new name is
validated before the pop), so the rename does not silently overwrite the
existing entry as the claim states. -/
theorem Session.rename_script_counterexample :
    Session.rename_script
        [("a", ⟨"a", "codeA", []⟩), ("b", ⟨"b", "codeB", []⟩)] "a" "b"
      = .error .invalidArgument ∧
    Session.rename_cdp_cmd
        [("a", ⟨"a", "cmdA", []⟩), ("b", ⟨"b", "cmdB", []⟩)] "a" "b"
      = .error .invalidArgument := by
  constructor <;> rfl

/-- C5 (amended): `rename_script` (and likewise `rename_cdp_cmd`) removes
the cached entry and reinserts it under `new_name`; but when `new_name` is
already the name of another cached entry the rename raises
`InvalidArgumentError` and leaves the cache unchanged, rather than silently
overwriting that entry. -/
theorem Session.rename_script_cdp_cmd_amended
    (cache : List (String × JavaScript)) (cmds : List (String × DevToolsCMD))
    (s n : String) (js : JavaScript) (c : DevToolsCMD)
    (hNd : NodupK cache) (hNdC : NodupK cmds)
    (hs : dget cache s = some js) (hc : dget cmds s = some c)
    (hjs : js.script ≠ "") (hcmd : c.cmd ≠ "") (hn : n ≠ "") (hsn : s ≠ n) :
    (dmem cache n = true →
      Session.rename_script cache s n = .error .invalidArgument) ∧
    (dmem cache n = false →
      Session.rename_script cache s n
        = .ok (dset (dpop cache s) n ⟨n, js.script, js.args⟩,
               ⟨n, js.script, js.args⟩) ∧
      dget (dset (dpop cache s) n ⟨n, js.script, js.args⟩) n
        = some ⟨n, js.script, js.args⟩ ∧
      dget (dset (dpop cache s) n ⟨n, js.script, js.args⟩) s = none ∧
      ∀ k, k ≠ n → k ≠ s →
        dget (dset (dpop cache s) n ⟨n, js.script, js.args⟩) k = dget cache k) ∧
    (dmem cmds n = true →
      Session.rename_cdp_cmd cmds s n = .error .invalidArgument) ∧
    (dmem cmds n = false →
      Session.rename_cdp_cmd cmds s n
        = .ok (dset (dpop cmds s) n ⟨n, c.cmd, c.kwargs⟩, ⟨n, c.cmd, c.kwargs⟩) ∧
      dget (dset (dpop cmds s) n ⟨n, c.cmd, c.kwargs⟩) n
        = some ⟨n, c.cmd, c.kwargs⟩ ∧
      dget (dset (dpop cmds s) n ⟨n, c.cmd, c.kwargs⟩) s = none ∧
      ∀ k, k ≠ n → k ≠ s →
        dget (dset (dpop cmds s) n ⟨n, c.cmd, c.kwargs⟩) k = dget cmds k) := by
  have hns : n ≠ s := fun he => hsn he.symm
  refine ⟨?_, ?_, ?_, ?_⟩
  · intro hmem
    simp [Session.rename_script, Session.validate_script_name, hn, hmem,
      Bind.bind, Except.bind]
  · intro hmem
    have hpopmem : dmem (dpop cache s) n = false := by
      unfold dmem
      rw [dget_dpop_ne cache s n hns]
      unfold dmem at hmem
      exact hmem
    refine ⟨?_, dget_dset_self _ _ _, ?_, ?_⟩
    · simp [Session.rename_script, Session.validate_script_name, hn, hmem, hs,
        Session.cache_script, Session.validate_cdp_cmd_name, hpopmem, hjs]
    · rw [dget_dset_ne _ _ _ _ hsn, dget_dpop_self cache s hNd]
    · intro k hkn hks
      rw [dget_dset_ne _ _ _ _ hkn, dget_dpop_ne cache s k hks]
  · intro hmem
    simp [Session.rename_cdp_cmd, Session.validate_cdp_cmd_name, hn, hmem,
      Bind.bind, Except.bind]
  · intro hmem
    have hpopmem : dmem (dpop cmds s) n = false := by
      unfold dmem
      rw [dget_dpop_ne cmds s n hns]
      unfold dmem at hmem
      exact hmem
    refine ⟨?_, dget_dset_self _ _ _, ?_, ?_⟩
    · simp [Session.rename_cdp_cmd, Session.validate_cdp_cmd_name, hn, hmem, hc,
        Session.cache_cdp_cmd, hpopmem, hcmd]
    · rw [dget_dset_ne _ _ _ _ hsn, dget_dpop_self cmds s hNdC]
    · intro k hkn hks
      rw [dget_dset_ne _ _ _ _ hkn, dget_dpop_ne cmds s k hks]

/-- Concrete script cache used by the C5 witness. -/
def jsCacheW : List (String × JavaScript) :=
  [("a", ⟨"a", "codeA", []⟩), ("b", ⟨"b", "codeB", []⟩)]

/-- Concrete devtools-command cache used by the C5 witness. -/
def cdpCacheW : List (String × DevToolsCMD) :=
  [("a", ⟨"a", "cmdA", []⟩), ("b", ⟨"b", "cmdB", []⟩)]

/-- C5 witness: renaming "a" to "c" in a two-entry cache. -/
theorem Session.rename_script_cdp_cmd_amended_witness :
    (dmem jsCacheW "c" = true →
      Session.rename_script jsCacheW "a" "c" = .error .invalidArgument) ∧
    (dmem jsCacheW "c" = false →
      Session.rename_script jsCacheW "a" "c"
        = .ok (dset (dpop jsCacheW "a") "c" ⟨"c", "codeA", []⟩, ⟨"c", "codeA", []⟩) ∧
      dget (dset (dpop jsCacheW "a") "c" ⟨"c", "codeA", []⟩) "c"
        = some ⟨"c", "codeA", []⟩ ∧
      dget (dset (dpop jsCacheW "a") "c" ⟨"c", "codeA", []⟩) "a" = none ∧
      ∀ k, k ≠ "c" → k ≠ "a" →
        dget (dset (dpop jsCacheW "a") "c" ⟨"c", "codeA", []⟩) k = dget jsCacheW k) ∧
    (dmem cdpCacheW "c" = true →
      Session.rename_cdp_cmd cdpCacheW "a" "c" = .error .invalidArgument) ∧
    (dmem cdpCacheW "c" = false →
      Session.rename_cdp_cmd cdpCacheW "a" "c"
        = .ok (dset (dpop cdpCacheW "a") "c" ⟨"c", "cmdA", []⟩, ⟨"c", "cmdA", []⟩) ∧
      dget (dset (dpop cdpCacheW "a") "c" ⟨"c", "cmdA", []⟩) "c"
        = some ⟨"c", "cmdA", []⟩ ∧
      dget (dset (dpop cdpCacheW "a") "c" ⟨"c", "cmdA", []⟩) "a" = none ∧
      ∀ k, k ≠ "c" → k ≠ "a" →
        dget (dset (dpop cdpCacheW "a") "c" ⟨"c", "cmdA", []⟩) k = dget cdpCacheW k) :=
  Session.rename_script_cdp_cmd_amended jsCacheW cdpCacheW
    "a" "c" ⟨"a", "codeA", []⟩ ⟨"a", "cmdA", []⟩
    (by decide) (by decide) (by rfl) (by rfl)
    (by decide) (by decide) (by decide) (by decide)

/-! ## C6: scroll_to_top (`session.py`) -/

/-- Browser-side scroll state observed through `session.viewport`.
Modelled from the spec: `Rectangle.top` (class `Rectangle` lives in
`aselenium/utils.py`, not under src/) is the measured vertical offset of the
viewport from the page top, clamped at 0 by the renderer.  `cmds` counts the
scroll commands issued (`scroll_by` / `scroll_to`). -/
structure ScrollState where
  top : Nat
  cmds : Nat
deriving Repr, DecidableEq

/-- `Session.scroll_by(height=-pixel)`: move the viewport up by `pixel`,
clamped at the page top. -/
def Session.scroll_by_up (s : ScrollState) (pixel : Nat) : ScrollState :=
  ⟨s.top - pixel, s.cmds + 1⟩

/-- `Session.scroll_to(x, 0)`: jump straight to the page top. -/
def Session.scroll_to_zero (s : ScrollState) : ScrollState :=
  ⟨0, s.cmds + 1⟩

/-- Fuel-indexed unfolding of `while (await self.viewport).top > 0:
await self.scroll_by(height=-pixel)`.  Every iteration with `pixel ≥ 1`
strictly decreases `top`, so fuel equal to the starting offset makes the
fuel-0 branch coincide with the loop exit (`top` is already 0 there, proved
below); the callers below always pass such fuel and a validated
`pixel ≥ 1`. -/
def Session.scrollTopGo (pixel : Nat) : Nat → ScrollState → ScrollState
  | 0, s => s
  | fuel + 1, s =>
    if s.top = 0 then s
    else Session.scrollTopGo pixel fuel (Session.scroll_by_up s pixel)

/-- The scroll loop of `scroll_to_top`, entered with enough fuel. -/
def Session.scrollTopWhile (pixel : Nat) (s : ScrollState) : ScrollState :=
  Session.scrollTopGo pixel s.top s

/-- `Session.scroll_to_top(value, by, pause)` (session.py lines 2159-2211):
validate `value` (an integer at least 1) and the strategy (a member of
`Constraint.PAGE_SCROLL_BY_STRATEGIES`, i.e. "steps" or "pixels" per the
docstring; `settings.py` is not under src/).  In "steps" mode: return
immediately when the viewport is already at the top; jump straight to the
top when `value == 1`; otherwise scroll by `ceil(top / value)` per step.
In "pixels" mode: scroll by `value` per step, with no already-at-top fast
path.  Both looping branches issue one `scroll_by` before testing the while
condition.  The pause between steps only delays and is not modelled. -/
def Session.scroll_to_top (value : Int) (byStrategy : String) (s : ScrollState) :
    Except Err ScrollState :=
  if value < 1 then .error .invalidArgument
  else if byStrategy = "steps" then
    if s.top ≤ 0 then .ok s
    else if value = 1 then .ok (Session.scroll_to_zero s)
    else
      let pixel : Nat := (s.top + value.toNat - 1) / value.toNat
      .ok (Session.scrollTopWhile pixel (Session.scroll_by_up s pixel))
  else if byStrategy = "pixels" then
    let pixel : Nat := value.toNat
    .ok (Session.scrollTopWhile pixel (Session.scroll_by_up s pixel))
  else .error .invalidArgument

theorem Session.scrollTopGo_top_zero (pixel : Nat) (hp : 1 ≤ pixel) :
    ∀ fuel s, s.top ≤ fuel → (Session.scrollTopGo pixel fuel s).top = 0 := by
  intro fuel
  induction fuel with
  | zero =>
    intro s hs
    simp only [Session.scrollTopGo]
    omega
  | succ fuel ih =>
    intro s hs
    simp only [Session.scrollTopGo]
    by_cases h0 : s.top = 0
    · simp [h0]
    · rw [if_neg h0]
      exact ih (Session.scroll_by_up s pixel) (by simp [Session.scroll_by_up]; omega)

theorem Session.scrollTopWhile_top_zero (pixel : Nat) (hp : 1 ≤ pixel)
    (s : ScrollState) : (Session.scrollTopWhile pixel s).top = 0 :=
  Session.scrollTopGo_top_zero pixel hp s.top s le_rfl

/-- C6 counterexample: in "pixels" mode with the viewport already at the
top, `scroll_to_top` still issues one scroll command (`cmds` goes from 0 to
1), because the pixels branch has no already-at-top fast path; so it is not
a no-op there as the claim states. -/
theorem Session.scroll_to_top_pixels_not_noop :
    Session.scroll_to_top 5 "pixels" ⟨0, 0⟩ = .ok ⟨0, 1⟩ ∧ (1 : Nat) ≠ 0 := by
  constructor
  · rfl
  · decide

/-- C6 (amended): `scroll_to_top`, started from any vertical offset,
terminates with the measured viewport top equal to 0 in both "steps" and
"pixels" modes; when the viewport is already at the top it is a no-op
(issues no scroll command) in "steps" mode, while in "pixels" mode it still
issues exactly one (position-preserving) scroll command. -/
theorem Session.scroll_to_top_amended (s : ScrollState) (value : Int)
    (hv : 1 ≤ value) :
    (∃ s1, Session.scroll_to_top value "steps" s = .ok s1 ∧ s1.top = 0) ∧
    (∃ s2, Session.scroll_to_top value "pixels" s = .ok s2 ∧ s2.top = 0) ∧
    (s.top = 0 → Session.scroll_to_top value "steps" s = .ok s) ∧
    (s.top = 0 → Session.scroll_to_top value "pixels" s = .ok ⟨0, s.cmds + 1⟩) := by
  have hvn : ¬value < 1 := not_lt.mpr hv
  have hv1 : 1 ≤ value.toNat := by omega
  refine ⟨?_, ?_, ?_, ?_⟩
  · by_cases h0 : s.top ≤ 0
    · exact ⟨s, by simp [Session.scroll_to_top, hvn, h0], by omega⟩
    · by_cases h1 : value = 1
      · exact ⟨Session.scroll_to_zero s,
          by simp [Session.scroll_to_top, hvn, h0, h1], rfl⟩
      · have hpx : 1 ≤ (s.top + value.toNat - 1) / value.toNat := by
          rw [Nat.le_div_iff_mul_le (by omega)]
          omega
        refine ⟨Session.scrollTopWhile ((s.top + value.toNat - 1) / value.toNat)
            (Session.scroll_by_up s ((s.top + value.toNat - 1) / value.toNat)),
          by simp [Session.scroll_to_top, hvn, h0, h1], ?_⟩
        exact Session.scrollTopWhile_top_zero _ hpx _
  · refine ⟨Session.scrollTopWhile value.toNat (Session.scroll_by_up s value.toNat),
      by simp [Session.scroll_to_top, hvn], ?_⟩
    exact Session.scrollTopWhile_top_zero _ hv1 _
  · intro h0
    simp [Session.scroll_to_top, hvn, h0]
  · intro h0
    have hsb : Session.scroll_by_up s value.toNat = ⟨0, s.cmds + 1⟩ := by
      simp [Session.scroll_by_up, h0]
    simp [Session.scroll_to_top, hvn, Session.scrollTopWhile, hsb,
      Session.scrollTopGo]

/-- C6 witness: starting offset 10, value 3, both modes. -/
theorem Session.scroll_to_top_amended_witness :
    ((∃ s1, Session.scroll_to_top 3 "steps" ⟨10, 0⟩ = .ok s1 ∧ s1.top = 0) ∧
     (∃ s2, Session.scroll_to_top 3 "pixels" ⟨10, 0⟩ = .ok s2 ∧ s2.top = 0) ∧
     ((10 : Nat) = 0 → Session.scroll_to_top 3 "steps" ⟨10, 0⟩ = .ok ⟨10, 0⟩) ∧
     ((10 : Nat) = 0 → Session.scroll_to_top 3 "pixels" ⟨10, 0⟩ = .ok ⟨0, 0 + 1⟩)) :=
  Session.scroll_to_top_amended ⟨10, 0⟩ 3 (by decide)

/-! ## C8: set_window_rect retry loop (`session.py`) -/

/-- Response of one `SET_WINDOW_RECT` round trip: success, an
`UnknownError` whose message contains `ErrorCode.FAILED_TO_CLOSE_FULLSCREEN`,
or any other error. -/
inductive RectResp where
  | ok
  | fullscreenErr
  | otherErr
deriving Repr, DecidableEq

/-- Fuel-indexed unfolding of the `while True` retry loop of
`Session.set_window_rect` (session.py lines 2040-2053), starting at attempt
`i` against per-attempt responses `resp`: success returns, the
failed-to-close-fullscreen error sleeps 0.2 s and retries, any other error
re-raises immediately.  `none` means the loop is still retrying after
`fuel` attempts; the loop itself has no bound and no timeout. -/
def Session.setRectLoop (resp : Nat → RectResp) : Nat → Nat → Option (Except Err Unit)
  | _, 0 => none
  | i, fuel + 1 =>
    match resp i with
    | .ok => some (.ok ())
    | .fullscreenErr => Session.setRectLoop resp (i + 1) fuel
    | .otherErr => some (.error .unknown)

/-- `Session.set_window_rect`, observed for `fuel` attempts. -/
def Session.set_window_rect (resp : Nat → RectResp) (fuel : Nat) :
    Option (Except Err Unit) :=
  Session.setRectLoop resp 0 fuel

theorem Session.setRectLoop_persistent (resp : Nat → RectResp)
    (hfs : ∀ i, resp i = .fullscreenErr) :
    ∀ fuel i, Session.setRectLoop resp i fuel = none := by
  intro fuel
  induction fuel with
  | zero => intro i; rfl
  | succ fuel ih =>
    intro i
    simp only [Session.setRectLoop, hfs i]
    exact ih (i + 1)

theorem Session.setRectLoop_resolves (resp : Nat → RectResp) :
    ∀ fuel k i, k < fuel → (∀ j, j < k → resp (i + j) = .fullscreenErr) →
    (resp (i + k) = .ok →
      Session.setRectLoop resp i fuel = some (.ok ())) ∧
    (resp (i + k) = .otherErr →
      Session.setRectLoop resp i fuel = some (.error .unknown)) := by
  intro fuel
  induction fuel with
  | zero => intro k i hk; omega
  | succ fuel ih =>
    intro k i hk hfs
    cases k with
    | zero =>
      constructor
      · intro hok
        simp only [Nat.add_zero] at hok
        simp [Session.setRectLoop, hok]
      · intro hother
        simp only [Nat.add_zero] at hother
        simp [Session.setRectLoop, hother]
    | succ m =>
      have h0 : resp i = .fullscreenErr := by simpa using hfs 0 (Nat.succ_pos m)
      have hrec := ih m (i + 1) (by omega)
        (fun j hj => by
          have := hfs (j + 1) (by omega)
          simpa [Nat.add_assoc, Nat.add_comm 1 j] using this)
      constructor
      · intro hok
        simp only [Session.setRectLoop, h0]
        exact hrec.1 (by simpa [Nat.add_assoc, Nat.add_comm 1 m] using hok)
      · intro hother
        simp only [Session.setRectLoop, h0]
        exact hrec.2 (by simpa [Nat.add_assoc, Nat.add_comm 1 m] using hother)

/-- C8 counterexample: against a remote that reports the
failed-to-close-fullscreen error on every attempt, `set_window_rect` is
still retrying after 100 attempts; nothing in the function bounds the retry
(there is no surrounding timeout parameter in its signature), so the
"terminates rather than retrying forever if the error persists" part of the
claim fails. -/
theorem Session.set_window_rect_unbounded_counterexample :
    Session.set_window_rect (fun _ => .fullscreenErr) 100 = none := by
  rfl

/-- C8 (amended): `set_window_rect` retries the set-rect command exactly on
the failed-to-close-fullscreen error (pausing 0.2 s between attempts) and
re-raises every other error immediately; but the retrying is unbounded: the
function imposes no timeout of its own, so if the error persists on every
attempt it never returns (it terminates only when some attempt yields a
different response). -/
theorem Session.set_window_rect_retry (resp : Nat → RectResp) (k fuel : Nat)
    (hk : k < fuel) (hfs : ∀ j, j < k → resp j = .fullscreenErr) :
    (resp k = .ok → Session.set_window_rect resp fuel = some (.ok ())) ∧
    (resp k = .otherErr →
      Session.set_window_rect resp fuel = some (.error .unknown)) ∧
    ((∀ i, resp i = .fullscreenErr) →
      Session.set_window_rect resp fuel = none) := by
  have h := Session.setRectLoop_resolves resp fuel k 0 hk
    (fun j hj => by simpa using hfs j hj)
  refine ⟨fun hok => h.1 (by simpa using hok),
    fun hother => h.2 (by simpa using hother),
    fun hall => Session.setRectLoop_persistent resp hall fuel 0⟩

/-- C8 witness: two fullscreen errors then success, within 10 attempts. -/
theorem Session.set_window_rect_retry_witness :
    (((fun i => if i < 2 then RectResp.fullscreenErr else .ok) 2 = .ok →
      Session.set_window_rect
        (fun i => if i < 2 then RectResp.fullscreenErr else .ok) 10
        = some (.ok ())) ∧
    ((fun i => if i < 2 then RectResp.fullscreenErr else .ok) 2 = .otherErr →
      Session.set_window_rect
        (fun i => if i < 2 then RectResp.fullscreenErr else .ok) 10
        = some (.error .unknown)) ∧
    ((∀ i, (fun i => if i < 2 then RectResp.fullscreenErr else .ok) i
        = .fullscreenErr) →
      Session.set_window_rect
        (fun i => if i < 2 then RectResp.fullscreenErr else .ok) 10 = none)) :=
  Session.set_window_rect_retry
    (fun i => if i < 2 then RectResp.fullscreenErr else .ok) 2 10
    (by decide) (fun j hj => by simp [hj])

/-! ## C7: _find_1st_element polling (`session.py`) -/

/-- One pass of `for value in values` inside `Session._find_1st_element`
(session.py lines 2845-2852): query the locator at the current time; return
the element on a hit, otherwise sleep 0.2 s and try the next one.  Time is
counted in 0.2 s units (one unit per sleep; remote round trips are
instantaneous in this model).  `m t v` says whether locator `v` matches an
element at time `t`. -/
def Session.findPass (m : Nat → String → Bool) : List String → Nat →
    Option String × Nat
  | [], t => (none, t)
  | v :: vs, t =>
    if m t v then (some v, t)
    else Session.findPass m vs (t + 1)

theorem Session.findPass_none_time (m : Nat → String → Bool) :
    ∀ vs t t', Session.findPass m vs t = (none, t') → t' = t + vs.length := by
  intro vs
  induction vs with
  | nil =>
    intro t t' h
    simp only [Session.findPass, Prod.mk.injEq] at h
    simp [h.2]
  | cons v vs ih =>
    intro t t' h
    simp only [Session.findPass] at h
    by_cases hm : m t v
    · simp [hm] at h
    · rw [if_neg hm] at h
      have := ih (t + 1) t' h
      simp only [List.length_cons]
      omega

/-- The `while unit_time() - start_time < timeout` loop of
`_find_1st_element`, entered at elapsed time `t` (start time 0): one sweep
over the locators per iteration.  The empty-locator guard only totalizes a
case the source spins through until the clock passes the timeout, with the
same `None` outcome. -/
def Session.findLoop (m : Nat → String → Bool) (values : List String)
    (timeout t : Nat) : Option String × Nat :=
  if hne : values = [] then (none, t)
  else if hto : timeout ≤ t then (none, t)
  else
    match hp : Session.findPass m values t with
    | (some v, tf) => (some v, tf)
    | (none, t') => Session.findLoop m values timeout t'
termination_by timeout - t
decreasing_by
  have hlen : values.length ≠ 0 := fun h => hne (List.length_eq_zero.mp h)
  have := Session.findPass_none_time m values t t' hp
  omega

/-- `Session._find_1st_element(values, by, node)` against the implicit-wait
timeout (in 0.2 s units): returns the located element (identified by its
locator) and the elapsed time at return. -/
def Session.find_1st_element (m : Nat → String → Bool) (values : List String)
    (timeout : Nat) : Option String × Nat :=
  Session.findLoop m values timeout 0

theorem Session.findPass_static (M : String → Bool) :
    ∀ (vs : List String) (t : Nat) (v0 : String), vs.find? M = some v0 →
      ∃ tf, Session.findPass (fun _ v => M v) vs t = (some v0, tf) := by
  intro vs
  induction vs with
  | nil => intro t v0 h; simp at h
  | cons v vs ih =>
    intro t v0 h
    by_cases hm : M v = true
    · rw [List.find?_cons_of_pos _ hm] at h
      have hv : v = v0 := by simpa using h
      subst hv
      refine ⟨t, ?_⟩
      simp only [Session.findPass, hm, if_true]
    · have hm' : M v = false := by
        cases hb : M v
        · rfl
        · exact absurd hb hm
      rw [List.find?_cons_of_neg _ hm] at h
      obtain ⟨tf, htf⟩ := ih (t + 1) v0 h
      refine ⟨tf, ?_⟩
      simp only [Session.findPass, hm', Bool.false_eq_true, if_false]
      exact htf

theorem Session.findLoop_found (m : Nat → String → Bool) (values : List String)
    (timeout t : Nat) (hne : values ≠ []) (hlt : t < timeout)
    (v0 : String) (tf : Nat) (hp : Session.findPass m values t = (some v0, tf)) :
    Session.findLoop m values timeout t = (some v0, tf) := by
  rw [Session.findLoop]
  rw [dif_neg hne, dif_neg (Nat.not_le.mpr hlt)]
  split
  · rename_i v1 tf1 hp1
    rw [hp] at hp1
    simp only [Prod.mk.injEq, Option.some.injEq] at hp1
    rw [hp1.1, hp1.2]
  · rename_i t1 hp1
    rw [hp] at hp1
    simp at hp1

theorem Session.findLoop_none_late (m : Nat → String → Bool)
    (values : List String) (timeout : Nat) (hne : values ≠ []) :
    ∀ d t, timeout - t ≤ d →
      (Session.findLoop m values timeout t).1 = none →
      timeout ≤ (Session.findLoop m values timeout t).2 := by
  intro d
  induction d with
  | zero =>
    intro t hd _
    rw [Session.findLoop, dif_neg hne, dif_pos (by omega)]
    omega
  | succ d ih =>
    intro t hd hnone
    by_cases hto : timeout ≤ t
    · rw [Session.findLoop, dif_neg hne, dif_pos hto]
      exact hto
    · rw [Session.findLoop, dif_neg hne, dif_neg hto] at hnone ⊢
      have hlen : values.length ≠ 0 := fun h => hne (List.length_eq_zero.mp h)
      split at hnone
      · simp at hnone
      · rename_i t1 hp1
        have ht1 := Session.findPass_none_time m values t t1 hp1
        exact ih t1 (by omega) hnone
  
theorem Session.findLoop_nomatch_none (m : Nat → String → Bool)
    (values : List String) (timeout : Nat)
    (hnone : ∀ t v, m t v = false) :
    ∀ d t, timeout - t ≤ d → (Session.findLoop m values timeout t).1 = none := by
  have hpass : ∀ t, Session.findPass m values t = (none, t + values.length) := by
    intro t
    clear timeout
    induction values generalizing t with
    | nil => simp [Session.findPass]
    | cons v vs ih =>
      simp only [Session.findPass, hnone, Bool.false_eq_true, if_false,
        List.length_cons, ih]
      have harith : t + 1 + vs.length = t + (vs.length + 1) := by omega
      rw [harith]
  intro d
  induction d with
  | zero =>
    intro t hd
    by_cases hne : values = []
    · rw [Session.findLoop, dif_pos hne]
    · rw [Session.findLoop, dif_neg hne, dif_pos (by omega)]
  | succ d ih =>
    intro t hd
    by_cases hne : values = []
    · rw [Session.findLoop, dif_pos hne]
    · by_cases hto : timeout ≤ t
      · rw [Session.findLoop, dif_neg hne, dif_pos hto]
      · rw [Session.findLoop, dif_neg hne, dif_neg hto]
        have hlen : values.length ≠ 0 := fun h => hne (List.length_eq_zero.mp h)
        split
        · rename_i v2 tf2 hp2
          rw [hpass t] at hp2
          simp at hp2
        · rename_i t2 hp2
          rw [hpass t] at hp2
          simp only [Prod.mk.injEq] at hp2
          rw [← hp2.2]
          exact ih (t + values.length) (by omega)

/-- C7: `find_1st_element`: with a matcher that is stable over time, when at
least one listed locator matches, the result is the element of the first
matching locator in listed order (ties resolve to the listed order); and
against locators that never match, with a positive implicit-wait timeout,
it returns `None` only once the elapsed time has reached the full timeout,
polling round-robin, never immediately. -/
theorem Session.find_1st_element_spec (M : String → Bool)
    (m : Nat → String → Bool) (values : List String) (timeout : Nat)
    (hne : values ≠ []) (ht : 0 < timeout) (hm : ∀ t v, m t v = false) :
    (∀ v0, values.find? M = some v0 →
      (Session.find_1st_element (fun _ v => M v) values timeout).1 = some v0) ∧
    (Session.find_1st_element m values timeout).1 = none ∧
    timeout ≤ (Session.find_1st_element m values timeout).2 := by
  have hnone := Session.findLoop_nomatch_none m values timeout hm
    (timeout - 0) 0 le_rfl
  refine ⟨?_, hnone, ?_⟩
  · intro v0 hf
    obtain ⟨tf, htf⟩ := Session.findPass_static M values 0 v0 hf
    unfold Session.find_1st_element
    rw [Session.findLoop_found (fun _ v => M v) values timeout 0 hne ht v0 tf htf]
  · exact Session.findLoop_none_late m values timeout hne (timeout - 0) 0 le_rfl hnone

/-- C7 witness: locators "#a" and "#b" where only "#b" exists, timeout 5
units; and a matcher that never matches. -/
theorem Session.find_1st_element_spec_witness :
    ((∀ v0, ["#a", "#b"].find? (fun v => v == "#b") = some v0 →
      (Session.find_1st_element (fun _ v => (fun v => v == "#b") v)
        ["#a", "#b"] 5).1 = some v0) ∧
    (Session.find_1st_element (fun _ _ => false) ["#a", "#b"] 5).1 = none ∧
    5 ≤ (Session.find_1st_element (fun _ _ => false) ["#a", "#b"] 5).2) :=
  Session.find_1st_element_spec (fun v => v == "#b") (fun _ _ => false)
    ["#a", "#b"] 5 (by decide) (by decide) (fun _ _ => rfl)

/-! ## C4: quit() under cancellation (`session.py`) -/

/-- Final outcome of the inner QUIT retry loop, which converts every
`CancelledError` raised while awaiting `Command.QUIT` into `cancelled =
True` and retries, so the loop only ends on success, on the swallowed
`SessionClientError`, or on another exception that gets recorded. -/
inductive QuitCmdOutcome where
  | ok
  | clientError
  | error
deriving Repr, DecidableEq

/-- Outcome of the single awaited `self._service.stop()` call inside
`quit`. -/
inductive StopOutcome where
  | ok
  | cancelled
  | error
deriving Repr, DecidableEq

/-- What `Session.quit` raises, and which teardown steps ran. -/
inductive QuitRaise where
  | ok
  | cancelledError
  | serviceStopError
deriving Repr, DecidableEq

structure QuitResult where
  raised : QuitRaise
  quitAttempts : Nat
  stopAttempted : Bool
  garbageCollected : Bool
deriving Repr, DecidableEq

/-- `Session.quit` (session.py lines 730-772) on an open session.
`ncancel` is the number of `CancelledError`s raised while awaiting
`Command.QUIT` (each sets `cancelled = True` and retries), `cmdOutcome` how
the QUIT loop finally ends, `stopOutcome` how the service stop ends.  A
`SessionClientError` from QUIT is swallowed, any other exception is
collected; the service stop is then always attempted, its `CancelledError`
recorded and its other exceptions collected; after both, a recorded
cancellation is re-raised first, else collected exceptions raise
`ServiceStopError`; `_collect_garbage` runs in the `finally`. -/
def Session.quit (ncancel : Nat) (cmdOutcome : QuitCmdOutcome)
    (stopOutcome : StopOutcome) : QuitResult where
  raised :=
    if 0 < ncancel ∨ stopOutcome = .cancelled then .cancelledError
    else if cmdOutcome = .error ∨ stopOutcome = .error then .serviceStopError
    else .ok
  quitAttempts := ncancel + 1
  stopAttempted := true
  garbageCollected := true

/-- C4: a quit() cancelled in flight (while awaiting the session QUIT or
the service stop) still performs the whole teardown before surfacing the
cancellation: the remote session-quit is attempted, the service stop is
attempted, final cleanup runs, and the recorded cancellation is re-raised
after cleanup in preference to any ordinary teardown error. -/
theorem Session.quit_cancellation (ncancel : Nat) (cmdOutcome : QuitCmdOutcome)
    (stopOutcome : StopOutcome)
    (hcancel : 0 < ncancel ∨ stopOutcome = .cancelled) :
    (Session.quit ncancel cmdOutcome stopOutcome).raised = .cancelledError ∧
    1 ≤ (Session.quit ncancel cmdOutcome stopOutcome).quitAttempts ∧
    (Session.quit ncancel cmdOutcome stopOutcome).stopAttempted = true ∧
    (Session.quit ncancel cmdOutcome stopOutcome).garbageCollected = true := by
  refine ⟨?_, ?_, rfl, rfl⟩
  · show (if 0 < ncancel ∨ stopOutcome = .cancelled then QuitRaise.cancelledError
      else if cmdOutcome = .error ∨ stopOutcome = .error then .serviceStopError
      else .ok) = .cancelledError
    rw [if_pos hcancel]
  · show 1 ≤ ncancel + 1
    omega

/-- C4 witness: one cancellation during QUIT, and ordinary errors from both
the QUIT command and the service stop; the cancellation still wins. -/
theorem Session.quit_cancellation_witness :
    ((Session.quit 1 .error .error).raised = .cancelledError ∧
    1 ≤ (Session.quit 1 .error .error).quitAttempts ∧
    (Session.quit 1 .error .error).stopAttempted = true ∧
    (Session.quit 1 .error .error).garbageCollected = true) :=
  Session.quit_cancellation 1 .error .error (Or.inl (by decide))

/-! ## C9: BaseService.start failure cleanup (`service.py`) -/

/-- Observable state of the service after `start`/`stop`:
whether the allocated port is still in the class-wide claimed-port set,
whether the driver subprocess is running, and whether the aiohttp client
session is open. -/
structure SvcState where
  portClaimed : Bool
  processRunning : Bool
  sessionOpen : Bool
deriving Repr, DecidableEq

/-- The failure kinds `BaseService.start` itself can raise:
`_start_process` failing (executable missing, permissions, spawn timeout),
the subprocess exiting during the verify loop, or the verify loop timing
out without the port and client ever becoming connectable
(`ServiceStartError`). -/
inductive StartFailure where
  | processStart
  | processExit
  | neverConnectable
deriving Repr, DecidableEq

/-- Environment of one `start()` call: whether the spawn succeeds, the poll
index at which the subprocess dies (if ever), the poll index at which port
and HTTP client become connectable (if ever), how many 0.2 s polls fit in
`self._timeout`, and whether `_stop_session` raises during cleanup. -/
structure StartEnv where
  spawnOk : Bool
  exitAt : Option Nat
  connectableAt : Option Nat
  polls : Nat
  stopSessionFails : Bool
deriving Repr, DecidableEq

/-- Process dead at poll `i`. -/
def deadAt (exitAt : Option Nat) (i : Nat) : Bool :=
  match exitAt with
  | some j => decide (j ≤ i)
  | none => false

/-- Port and client connectable at poll `i`. -/
def connAt (connectableAt : Option Nat) (i : Nat) : Bool :=
  match connectableAt with
  | some j => decide (j ≤ i)
  | none => false

/-- The verify loop of `BaseService.start` (service.py lines 409-428):
while within the timeout, raise `ServiceProcessError` if the process is no
longer running, return once port and client are connectable, else sleep
0.2 s; on loop exhaustion raise `ServiceStartError`. -/
def BaseService.verifyLoop (exitAt connectableAt : Option Nat) :
    Nat → Nat → Except StartFailure Unit
  | _, 0 => .error .neverConnectable
  | i, polls + 1 =>
    if deadAt exitAt i then .error .processExit
    else if connAt connectableAt i then .ok ()
    else BaseService.verifyLoop exitAt connectableAt (i + 1) polls

/-- `BaseService.stop` (service.py lines 440-461): best-effort remote
shutdown and client close (`_stop_session`, whose errors are collected),
then `_stop_process` (close stdio, SIGTERM, SIGKILL on timeout — SIGKILL
ends the process, so afterwards it is not running), and in the `finally`
`_reset_port` discards the claimed port.  The returned flag reports whether
`ServiceStopError` was raised. -/
def BaseService.stop (_st : SvcState) (stopSessionFails : Bool) :
    SvcState × Bool :=
  (⟨false, false, false⟩, stopSessionFails)

/-- `BaseService.start` (service.py lines 403-438): claim a port and spawn
the subprocess, open the HTTP client, run the verify loop; on any failure
run `self.stop()` with its own errors swallowed, then re-raise the original
error. -/
def BaseService.start (env : StartEnv) : Except StartFailure Unit × SvcState :=
  if env.spawnOk = false then
    let (st, _) := BaseService.stop ⟨true, false, false⟩ env.stopSessionFails
    (.error .processStart, st)
  else
    match BaseService.verifyLoop env.exitAt env.connectableAt 0 env.polls with
    | .ok () => (.ok (), ⟨true, true, true⟩)
    | .error e =>
      let (st, _) := BaseService.stop ⟨true, true, true⟩ env.stopSessionFails
      (.error e, st)

/-- C9: whenever `BaseService.start` fails — the spawn fails, the subprocess
exits early, or port/client never become connectable within the service
timeout — the service is stopped before the error propagates: afterwards the
subprocess is not running, the claimed port is released (and the client
closed), and the raised error is the original start error of the failing
stage, never a cleanup error (the outcome does not depend on whether the
cleanup itself failed). -/
theorem BaseService.start_failure_cleanup (env : StartEnv) (e : StartFailure)
    (h : (BaseService.start env).1 = .error e) :
    (BaseService.start env).2.processRunning = false ∧
    (BaseService.start env).2.portClaimed = false ∧
    (BaseService.start env).2.sessionOpen = false ∧
    (env.spawnOk = false → e = .processStart) ∧
    (env.spawnOk = true →
      BaseService.verifyLoop env.exitAt env.connectableAt 0 env.polls
        = .error e) ∧
    (BaseService.start env).1
      = (BaseService.start
          ⟨env.spawnOk, env.exitAt, env.connectableAt, env.polls,
            !env.stopSessionFails⟩).1 := by
  by_cases hsp : env.spawnOk = false
  · have hstart : BaseService.start env
        = (.error .processStart, ⟨false, false, false⟩) := by
      simp [BaseService.start, hsp, BaseService.stop]
    rw [hstart] at h
    have he : e = .processStart := by
      have := h
      simp only [Except.error.injEq] at this
      exact this.symm
    refine ⟨by rw [hstart], by rw [hstart], by rw [hstart], fun _ => he,
      fun hc => absurd hsp (by simp [hc]), ?_⟩
    rw [hstart]
    simp [BaseService.start, hsp, BaseService.stop]
  · have hsp' : env.spawnOk = true := by
      cases hb : env.spawnOk
      · exact absurd hb hsp
      · rfl
    cases hv : BaseService.verifyLoop env.exitAt env.connectableAt 0 env.polls with
    | ok u =>
      have hstart : BaseService.start env = (.ok (), ⟨true, true, true⟩) := by
        simp [BaseService.start, hsp', hv]
      rw [hstart] at h
      simp at h
    | error e1 =>
      have hstart : BaseService.start env
          = (.error e1, ⟨false, false, false⟩) := by
        simp [BaseService.start, hsp', hv, BaseService.stop]
      rw [hstart] at h
      have he : e1 = e := by
        simp only [Except.error.injEq] at h
        exact h
      refine ⟨by rw [hstart], by rw [hstart], by rw [hstart],
        fun hc => absurd hc hsp, fun _ => by rw [he], ?_⟩
      rw [hstart]
      simp [BaseService.start, hsp', hv, BaseService.stop]

/-- C9 witness: a service whose port never becomes connectable within three
polls, with a failing cleanup. -/
theorem BaseService.start_failure_cleanup_witness :
    ((BaseService.start ⟨true, none, none, 3, true⟩).2.processRunning = false ∧
    (BaseService.start ⟨true, none, none, 3, true⟩).2.portClaimed = false ∧
    (BaseService.start ⟨true, none, none, 3, true⟩).2.sessionOpen = false ∧
    ((true : Bool) = false → StartFailure.neverConnectable = .processStart) ∧
    ((true : Bool) = true →
      BaseService.verifyLoop none none 0 3 = .error .neverConnectable) ∧
    (BaseService.start ⟨true, none, none, 3, true⟩).1
      = (BaseService.start ⟨true, none, none, 3, !true⟩).1) :=
  BaseService.start_failure_cleanup ⟨true, none, none, 3, true⟩
    .neverConnectable (by rfl)

/-! ## Window registry (`session.py`): data model for C1 and C3 -/

theorem dset_eq_append {α : Type} (d : List (String × α)) (k : String) (v : α)
    (h : dmem d k = false) : dset d k v = d ++ [(k, v)] := by
  induction d with
  | nil => rfl
  | cons hd t ih =>
    obtain ⟨k₀, v₀⟩ := hd
    by_cases hk : k₀ = k
    · subst hk
      rw [dmem, dget_cons_self] at h
      simp at h
    · rw [dset_cons_ne _ _ _ _ _ hk, List.cons_append]
      rw [dmem, dget_cons_ne _ _ _ _ hk] at h
      rw [ih h]

theorem dget_some_mem {α : Type} (d : List (String × α)) (k : String) (v : α)
    (h : dget d k = some v) : (k, v) ∈ d := by
  induction d with
  | nil => simp [dget] at h
  | cons hd t ih =>
    obtain ⟨k₀, v₀⟩ := hd
    by_cases hk : k₀ = k
    · subst hk
      rw [dget_cons_self] at h
      simp only [Option.some.injEq] at h
      simp [h]
    · rw [dget_cons_ne _ _ _ _ hk] at h
      simp [ih h]

theorem mem_dget {α : Type} (d : List (String × α)) (k : String) (v : α)
    (hNd : NodupK d) (h : (k, v) ∈ d) : dget d k = some v := by
  induction d with
  | nil => simp at h
  | cons hd t ih =>
    obtain ⟨k₀, v₀⟩ := hd
    simp only [NodupK, List.map_cons, List.nodup_cons] at hNd
    rcases List.mem_cons.mp h with he | ht
    · have hk : k₀ = k := by
        have := congrArg Prod.fst he.symm
        simpa using this
      subst hk
      have hv : v₀ = v := by
        have := congrArg Prod.snd he.symm
        simpa using this
      rw [dget_cons_self, hv]
    · by_cases hk : k₀ = k
      · subst hk
        exfalso
        apply hNd.1
        exact List.mem_map.mpr ⟨(k₀, v), ht, rfl⟩
      · rw [dget_cons_ne _ _ _ _ hk]
        exact ih hNd.2 ht

theorem dpop_sublist {α : Type} (d : List (String × α)) (k : String) :
    (dpop d k).Sublist d := by
  induction d with
  | nil => simp [dpop]
  | cons hd t ih =>
    obtain ⟨k₀, v₀⟩ := hd
    by_cases hk : k₀ = k
    · rw [hk, dpop_cons_self]
      exact List.sublist_cons_self _ _
    · rw [dpop_cons_ne _ _ _ _ hk]
      exact ih.cons₂ (k₀, v₀)

theorem mem_dpop {α : Type} (d : List (String × α)) (k : String)
    (p : String × α) (h : p ∈ dpop d k) : p ∈ d :=
  (dpop_sublist d k).subset h

/-- A session window: an immutable remote handle paired with the local
alias under which it is cached. -/
structure Window where
  handle : String
  name : String
deriving Repr, DecidableEq

/-- Window-related state of a `Session` together with the window state of a
conforming remote driver: the two client indexes, the handles of the
windows actually open on the remote (the session is gone — every command
answers `InvalidSessionIdError` — exactly when this list is empty), the
handle the remote considers focused (`none` right after the focused window
was closed), and the session id. -/
structure WinState where
  byName : List (String × Window)
  byHandle : List (String × Window)
  remote : List String
  active : Option String
  sessionId : String
deriving Repr, DecidableEq

/-- `Session._cache_window(handle, name)` (session.py 1968-1973): build the
`Window` and store it in both indexes; when the source passes `name=None`
the `Window` constructor draws a fresh `uuid4().hex` name, which the caller
supplies here. -/
def Session.cache_window (s : WinState) (handle name : String) :
    WinState × Window :=
  let win : Window := ⟨handle, name⟩
  ({ s with byName := dset s.byName name win,
            byHandle := dset s.byHandle handle win }, win)

/-- `Session._remove_window(window)` (session.py 1975-1986) for a `Window`
argument: dict membership and `pop` on the string-keyed indexes go through
`Window.__hash__`/`Window.__eq__`, which compare the window to a string key
by its name; so the first branch pops the by-name entry for `w.name` and
then the by-handle entry for that window, and the fallback branch treats
`w.name` as a by-handle key. -/
def Session.remove_window (s : WinState) (w : Window) : WinState × Bool :=
  match dget s.byName w.name with
  | some win =>
    ({ s with byName := dpop s.byName w.name,
              byHandle := dpop s.byHandle win.handle }, true)
  | none =>
    match dget s.byHandle w.name with
    | some win =>
      ({ s with byHandle := dpop s.byHandle w.name,
                byName := dpop s.byName win.name }, true)
    | none => (s, false)

/-- Bijectivity invariant of the two window indexes: keys are duplicate
free, every by-name entry is keyed by its window name and present in the
by-handle index under its handle, and symmetrically. -/
def WinInv (s : WinState) : Prop :=
  NodupK s.byName ∧ NodupK s.byHandle ∧
  (∀ p ∈ s.byName, p.2.name = p.1 ∧ dget s.byHandle p.2.handle = some p.2) ∧
  (∀ p ∈ s.byHandle, p.2.handle = p.1 ∧ dget s.byName p.2.name = some p.2)

instance (s : WinState) : Decidable (WinInv s) := by
  unfold WinInv; infer_instance

theorem WinInv.cachePreserved (s : WinState) (hInv : WinInv s) (h n : String)
    (hn : dget s.byName n = none) (hh : dget s.byHandle h = none) :
    WinInv (Session.cache_window s h n).1 := by
  obtain ⟨hNd1, hNd2, hfwd, hbwd⟩ := hInv
  have hmemn : dmem s.byName n = false := by rw [dmem, hn]; rfl
  have hmemh : dmem s.byHandle h = false := by rw [dmem, hh]; rfl
  simp only [Session.cache_window]
  refine ⟨nodupK_dset _ _ _ hNd1, nodupK_dset _ _ _ hNd2, ?_, ?_⟩
  · intro p hp
    simp only [] at hp
    rw [dset_eq_append _ _ _ hmemn, List.mem_append] at hp
    rcases hp with hp | hp
    · obtain ⟨he1, he2⟩ := hfwd p hp
      refine ⟨he1, ?_⟩
      by_cases hph : p.2.handle = h
      · rw [hph] at he2
        rw [hh] at he2
        cases he2
      · rw [dget_dset_ne _ _ _ _ hph, he2]
    · simp only [List.mem_singleton] at hp
      subst hp
      exact ⟨rfl, dget_dset_self _ _ _⟩
  · intro p hp
    rw [dset_eq_append _ _ _ hmemh, List.mem_append] at hp
    rcases hp with hp | hp
    · obtain ⟨he1, he2⟩ := hbwd p hp
      refine ⟨he1, ?_⟩
      by_cases hpn : p.2.name = n
      · rw [hpn] at he2
        rw [hn] at he2
        cases he2
      · rw [dget_dset_ne _ _ _ _ hpn, he2]
    · simp only [List.mem_singleton] at hp
      subst hp
      exact ⟨rfl, dget_dset_self _ _ _⟩

theorem WinInv.remove_entry (s : WinState) (hInv : WinInv s)
    (nm h : String) (win : Window)
    (h1 : dget s.byName nm = some win) (h2 : dget s.byHandle h = some win)
    (hn : win.name = nm) (hh : win.handle = h) :
    WinInv { s with byName := dpop s.byName nm, byHandle := dpop s.byHandle h } := by
  obtain ⟨hNd1, hNd2, hfwd, hbwd⟩ := hInv
  refine ⟨nodupK_dpop _ _ hNd1, nodupK_dpop _ _ hNd2, ?_, ?_⟩
  · intro p hp
    have hpold := mem_dpop _ _ _ hp
    obtain ⟨he1, he2⟩ := hfwd p hpold
    refine ⟨he1, ?_⟩
    by_cases hph : p.2.handle = h
    · exfalso
      rw [hph, h2] at he2
      have hpw : win = p.2 := by simpa using he2
      have hpk : p.1 = nm := by rw [← he1, ← hpw, hn]
      have : dget (dpop s.byName nm) nm = none := dget_dpop_self _ _ hNd1
      have hmem : dget (dpop s.byName nm) p.1 = some p.2 :=
        mem_dget _ _ _ (nodupK_dpop _ _ hNd1) (by
          have : p = (p.1, p.2) := rfl
          rw [← this]; exact hp)
      rw [hpk] at hmem
      rw [this] at hmem
      cases hmem
    · rw [dget_dpop_ne _ _ _ hph, he2]
  · intro p hp
    have hpold := mem_dpop _ _ _ hp
    obtain ⟨he1, he2⟩ := hbwd p hpold
    refine ⟨he1, ?_⟩
    by_cases hpn : p.2.name = nm
    · exfalso
      rw [hpn, h1] at he2
      have hpw : win = p.2 := by simpa using he2
      have hpk : p.1 = h := by rw [← he1, ← hpw, hh]
      have : dget (dpop s.byHandle h) h = none := dget_dpop_self _ _ hNd2
      have hmem : dget (dpop s.byHandle h) p.1 = some p.2 :=
        mem_dget _ _ _ (nodupK_dpop _ _ hNd2) (by
          have : p = (p.1, p.2) := rfl
          rw [← this]; exact hp)
      rw [hpk] at hmem
      rw [this] at hmem
      cases hmem
    · rw [dget_dpop_ne _ _ _ hpn, he2]

theorem WinInv.removePreserved (s : WinState) (hInv : WinInv s) (w : Window) :
    WinInv (Session.remove_window s w).1 := by
  unfold Session.remove_window
  cases h1 : dget s.byName w.name with
  | some win =>
    have hmemName := dget_some_mem _ _ _ h1
    obtain ⟨he1, he2⟩ := hInv.2.2.1 (w.name, win) hmemName
    exact WinInv.remove_entry s hInv w.name win.handle win h1 he2 he1 rfl
  | none =>
    cases h2 : dget s.byHandle w.name with
    | some win =>
      have hmemHandle := dget_some_mem _ _ _ h2
      obtain ⟨he1, he2⟩ := hInv.2.2.2 (w.name, win) hmemHandle
      exact WinInv.remove_entry s hInv win.name w.name win he2 h2 rfl he1
    | none => exact hInv

/-- The removal pass of the `windows` property (session.py 1695-1699):
iterate over a snapshot of the by-handle keys; every handle the remote no
longer reports is popped from the by-handle index and its window name from
the by-name index. -/
def Session.dropClosed (handles : List String) :
    List String → WinState → WinState
  | [], s => s
  | h :: rest, s =>
    if h ∈ handles then Session.dropClosed handles rest s
    else
      match dget s.byHandle h with
      | some win =>
        Session.dropClosed handles rest
          { s with byHandle := dpop s.byHandle h,
                   byName := dpop s.byName win.name }
      | none => Session.dropClosed handles rest s

/-- The caching pass of the `windows` property (session.py 1701-1704):
remote handles not yet cached are stored under fresh `uuid4().hex` names,
supplied by `fresh` at consecutive indexes from `i`. -/
def Session.cacheNew (fresh : Nat → String) :
    List String → WinState → Nat → WinState × Nat
  | [], s, i => (s, i)
  | h :: rest, s, i =>
    if dmem s.byHandle h then Session.cacheNew fresh rest s i
    else Session.cacheNew fresh rest (Session.cache_window s h (fresh i)).1 (i + 1)

/-- The `Session.windows` property (session.py 1668-1707): ask the remote
for all window handles; on `InvalidSessionIdError` (session gone because no
window is left) clear both indexes and return the empty list; otherwise
drop cached windows whose handle is no longer reported, cache newly
reported handles under fresh names, and return the by-handle values. -/
def Session.windows (fresh : Nat → String) (s : WinState) (i : Nat) :
    WinState × List Window × Nat :=
  if s.remote = [] then
    ({ s with byName := [], byHandle := [] }, [], i)
  else
    let s1 := Session.dropClosed s.remote (dkeys s.byHandle) s
    let (s2, i2) := Session.cacheNew fresh s.remote s1 i
    (s2, dvalues s2.byHandle, i2)

/-- `Session._active_window_handle` (session.py 1937-1953): `None` when the
session is gone (`InvalidSessionIdError`) or the focused window was just
closed (`WindowNotFountError`). -/
def Session.active_window_handle (s : WinState) : Option String :=
  if s.remote = [] then none else s.active

/-- The `Session.active_window` property (session.py 1709-1729): resolve
the active handle against the cache, or cache it as a new window under a
fresh name. -/
def Session.active_window (fresh : Nat → String) (s : WinState) (i : Nat) :
    WinState × Option Window × Nat :=
  match Session.active_window_handle s with
  | none => (s, none, i)
  | some h =>
    match dget s.byHandle h with
    | some w => (s, some w, i)
    | none =>
      let (s1, w) := Session.cache_window s h (fresh i)
      (s1, some w, i + 1)

/-- `Session.get_window(window)` (session.py 1731-1753) for a string
target: by-name lookup, then by-handle lookup, then
`_match_session_window`, which reconciles through the `windows` property
and scans for a handle or name match. -/
def Session.get_window (fresh : Nat → String) (s : WinState) (i : Nat)
    (window : String) : WinState × Option Window × Nat :=
  match dget s.byName window with
  | some w => (s, some w, i)
  | none =>
    match dget s.byHandle window with
    | some w => (s, some w, i)
    | none =>
      let (s1, wins, i1) := Session.windows fresh s i
      (s1, wins.find? (fun w => (window == w.handle) || (window == w.name)), i1)

/-- `Session.switch_window(window)` (session.py 1815-1852): resolve the
window, then issue `SWITCH_TO_WINDOW`; a conforming remote answers
`InvalidSessionIdError` when the session is gone, succeeds when the handle
is open, and answers `WindowNotFountError` for a stale handle, in which
case the source rematches against the live window list and retries once,
re-raising when the rematch fails. -/
def Session.switch_window (fresh : Nat → String) (s : WinState) (i : Nat)
    (window : String) : WinState × Nat × Except Err Window :=
  match Session.get_window fresh s i window with
  | (s1, none, i1) => (s1, i1, .error .windowNotFound)
  | (s1, some w, i1) =>
    if s1.remote = [] then (s1, i1, .error .invalidSessionId)
    else if w.handle ∈ s1.remote then
      ({ s1 with active := some w.handle }, i1, .ok w)
    else
      let (s2, wins, i2) := Session.windows fresh s1 i1
      match wins.find? (fun w2 => (window == w2.handle) || (window == w2.name)) with
      | some w2 =>
        if s2.remote = [] then (s2, i2, .error .invalidSessionId)
        else if w2.handle ∈ s2.remote then
          ({ s2 with active := some w2.handle }, i2, .ok w2)
        else (s2, i2, .error .windowNotFound)
      | none => (s2, i2, .error .windowNotFound)

/-- `Session.rename_window(window, new_name)` (session.py 1854-1893):
validate the new name against the by-name index first, then resolve the
window, remove it from both indexes and re-cache its handle under the new
name. -/
def Session.rename_window (fresh : Nat → String) (s : WinState) (i : Nat)
    (window new_name : String) : WinState × Nat × Except Err Window :=
  if new_name = "" then (s, i, .error .invalidArgument)
  else if dmem s.byName new_name then (s, i, .error .invalidArgument)
  else
    match Session.get_window fresh s i window with
    | (s1, none, i1) => (s1, i1, .error .windowNotFound)
    | (s1, some w, i1) =>
      let s2 := (Session.remove_window s1 w).1
      let (s3, w3) := Session.cache_window s2 w.handle new_name
      (s3, i1, .ok w3)

/-- Minimal JSON value for the handshake response shapes inspected by
`parse_session_id` (session ids are strings on the wire). -/
inductive JVal where
  | str (s : String)
  | obj (fields : List (String × JVal))
deriving Repr

/-- Level 2 of `parse_session_id` (session.py 780-804):
`res = res.get("value", res)` and a second "sessionId" probe; failure
raises `InvalidSessionError`.  A non-object "value" (which would crash the
source on `.get`) is treated as absent. -/
def Session.parse_session_id_nested (res : List (String × JVal)) :
    Except Err String :=
  let res2 : List (String × JVal) :=
    match dget res "value" with
    | some (.obj fields) => fields
    | _ => res
  match dget res2 "sessionId" with
  | some (.str sid) => if sid = "" then .error .invalidSessionId else .ok sid
  | _ => .error .invalidSessionId

/-- `parse_session_id` inside `Session._start_session`: a truthy top-level
"sessionId" wins, else the probe nested under "value", else
`InvalidSessionError`.  A non-string "sessionId" (never produced by a
driver) is treated as absent. -/
def Session.parse_session_id (res : List (String × JVal)) : Except Err String :=
  match dget res "sessionId" with
  | some (.str sid) =>
    if sid = "" then Session.parse_session_id_nested res else .ok sid
  | _ => Session.parse_session_id_nested res

/-- `Session._start_session` (session.py 774-834): parse the session id
from the handshake response (setting `_id`), then ask for the active window
handle — a conforming remote opens the fresh session with the window list
`newWindows` and focus `activeHandle` — and raise `InvalidSessionError`
when it is missing or empty; otherwise cache the window under the reserved
name "default". -/
def Session.start_session_res (s : WinState) (res : List (String × JVal))
    (newWindows : List String) (activeHandle : Option String) :
    WinState × Except Err Window :=
  match Session.parse_session_id res with
  | .error e => (s, .error e)
  | .ok sid =>
    let s1 := { s with sessionId := sid, remote := newWindows,
                       active := activeHandle }
    match Session.active_window_handle s1 with
    | none => (s1, .error .invalidSessionId)
    | some h =>
      if h = "" then (s1, .error .invalidSessionId)
      else
        let (s2, w) := Session.cache_window s1 h "default"
        (s2, .ok w)

/-- `Session.new_window(name, win_type, switch)` (session.py 1755-1813):
validate the name against the by-name index; a conforming remote answers
`NEW_WINDOW` with `InvalidSessionIdError` exactly when no window is left,
upon which a brand-new session is started transparently (fresh id `newId`,
one fresh window handle); otherwise it opens a fresh handle (drawn from the
injective handle supply at index `hc`), which is cached under `name` and
optionally switched to. -/
def Session.new_window (fresh hsupply : Nat → String) (s : WinState)
    (i hc : Nat) (name newId : String) (switch : Bool) :
    WinState × Nat × Nat × Except Err Window :=
  if name = "" then (s, i, hc, .error .invalidArgument)
  else if dmem s.byName name then (s, i, hc, .error .invalidArgument)
  else if s.remote = [] then
    match Session.start_session_res s [("sessionId", .str newId)]
        [hsupply hc] (some (hsupply hc)) with
    | (s1, .ok w) => (s1, i, hc + 1, .ok w)
    | (s1, .error e) => (s1, i, hc + 1, .error e)
  else
    let h := hsupply hc
    let (s1, w) := Session.cache_window { s with remote := s.remote ++ [h] } h name
    if switch then
      match Session.switch_window fresh s1 i name with
      | (s2, i2, .ok w2) => (s2, i2, hc + 1, .ok w2)
      | (s2, i2, .error e) => (s2, i2, hc + 1, .error e)
    else (s1, i, hc + 1, .ok w)

/-- The switch-to-a-random-window tail of `close_window` (session.py
1922-1930): read the live windows, switch to the first one, `None` when
none remain or the switch reports the session/window gone. -/
def Session.closeRandom (fresh : Nat → String) (s : WinState) (i : Nat) :
    WinState × Nat × Option Window :=
  match Session.windows fresh s i with
  | (s1, [], i1) => (s1, i1, none)
  | (s1, w0 :: _, i1) =>
    match Session.switch_window fresh s1 i1 w0.name with
    | (s2, i2, .ok _) => (s2, i2, some w0)
    | (s2, i2, .error _) => (s2, i2, none)

/-- `Session.close_window(switch_to)` (session.py 1895-1935): resolve the
active window (`None` when all windows are closed), issue `CLOSE` (the
remote drops the handle and leaves no window focused), remove the cached
entry, then switch to the requested window — `InvalidSessionIdError` means
everything is closed, a missing window falls back to a random switch — or
directly to a random remaining window. -/
def Session.close_window (fresh : Nat → String) (s : WinState) (i : Nat)
    (switchTo : Option String) : WinState × Nat × Option Window :=
  match Session.active_window fresh s i with
  | (s1, none, i1) => (s1, i1, none)
  | (s1, some w, i1) =>
    let s2 : WinState :=
      { s1 with remote := s1.remote.erase w.handle, active := none }
    let s3 := (Session.remove_window s2 w).1
    match switchTo with
    | some target =>
      match Session.switch_window fresh s3 i1 target with
      | (s4, i4, .ok w4) => (s4, i4, some w4)
      | (s4, i4, .error e) =>
        if e = .invalidSessionId then (s4, i4, none)
        else Session.closeRandom fresh s4 i4
    | none => Session.closeRandom fresh s3 i1

/-- Conformance of the cached state to the remote: every cached handle is
an open remote window. -/
def HandlesSub (s : WinState) : Prop :=
  ∀ p ∈ s.byHandle, p.1 ∈ s.remote

/-- Every open remote handle was issued by the (injective) driver handle
supply below index `hc`. -/
def RemoteIssued (hsupply : Nat → String) (hc : Nat) (s : WinState) : Prop :=
  ∀ h ∈ s.remote, ∃ j, j < hc ∧ h = hsupply j

/-- Every cached window name is either a caller-chosen name (drawn from
`pool`) or a generated `uuid4().hex` name below index `i`. -/
def NamesTracked (fresh : Nat → String) (pool : List String) (i : Nat)
    (s : WinState) : Prop :=
  ∀ p ∈ s.byName, p.1 ∈ pool ∨ ∃ j, j < i ∧ p.1 = fresh j

/-- The focused handle, when any, is an open remote window. -/
def ActiveOK (s : WinState) : Prop :=
  ∀ h, s.active = some h → h ∈ s.remote

/-- Full invariant: index bijectivity plus conformance of cache, remote,
name supply and focus. -/
def SInv (fresh hsupply : Nat → String) (pool : List String) (i hc : Nat)
    (s : WinState) : Prop :=
  WinInv s ∧ HandlesSub s ∧ RemoteIssued hsupply hc s ∧
  NamesTracked fresh pool i s ∧ ActiveOK s

/-- The `uuid4().hex` name supply never collides: distinct draws differ and
no draw equals a caller-chosen name. -/
def SupplyOK (fresh : Nat → String) (pool : List String) : Prop :=
  Function.Injective fresh ∧ ∀ j, fresh j ∉ pool

/-- Windows added to the by-name index by a reconcile carry generated
names. -/
def AddedNamesFresh (fresh : Nat → String) (s s1 : WinState) : Prop :=
  ∀ p ∈ s1.byName, p ∈ s.byName ∨ ∃ j, p.1 = fresh j

theorem SInv.mono (fresh hsupply : Nat → String) (pool : List String)
    (i hc i2 hc2 : Nat) (s : WinState) (hi : i ≤ i2) (hhc : hc ≤ hc2)
    (h : SInv fresh hsupply pool i hc s) : SInv fresh hsupply pool i2 hc2 s := by
  obtain ⟨h1, h2, h3, h4, h5⟩ := h
  refine ⟨h1, h2, ?_, ?_, h5⟩
  · intro hh hmem
    obtain ⟨j, hj, he⟩ := h3 hh hmem
    exact ⟨j, by omega, he⟩
  · intro p hp
    rcases h4 p hp with hp' | ⟨j, hj, he⟩
    · exact Or.inl hp'
    · exact Or.inr ⟨j, by omega, he⟩

theorem SInv.freshName_none (fresh hsupply : Nat → String) (pool : List String)
    (i hc : Nat) (s : WinState) (hsup : SupplyOK fresh pool)
    (hInv : SInv fresh hsupply pool i hc s) (j : Nat) (hj : i ≤ j) :
    dget s.byName (fresh j) = none := by
  cases hg : dget s.byName (fresh j) with
  | none => rfl
  | some w =>
    exfalso
    have hmem := dget_some_mem _ _ _ hg
    rcases hInv.2.2.2.1 (fresh j, w) hmem with hp | ⟨j2, hj2, he⟩
    · exact hsup.2 j hp
    · have : j2 = j := hsup.1 he.symm
      omega

theorem SInv.newHandle_none (fresh hsupply : Nat → String) (pool : List String)
    (i hc : Nat) (s : WinState) (hinj : Function.Injective hsupply)
    (hInv : SInv fresh hsupply pool i hc s) :
    hsupply hc ∉ s.remote ∧ dget s.byHandle (hsupply hc) = none := by
  have hrem : hsupply hc ∉ s.remote := by
    intro hmem
    obtain ⟨j, hj, he⟩ := hInv.2.2.1 (hsupply hc) hmem
    have : hc = j := hinj he
    omega
  refine ⟨hrem, ?_⟩
  cases hg : dget s.byHandle (hsupply hc) with
  | none => rfl
  | some w =>
    exfalso
    exact hrem (hInv.2.1 (hsupply hc, w) (dget_some_mem _ _ _ hg))

theorem SInv.cacheStep (fresh hsupply : Nat → String) (pool : List String)
    (i hc : Nat) (s : WinState) (hInv : SInv fresh hsupply pool i hc s)
    (h n : String) (hn : dget s.byName n = none) (hh : dget s.byHandle h = none)
    (hrem : h ∈ s.remote) (hname : n ∈ pool ∨ ∃ j, j < i ∧ n = fresh j) :
    SInv fresh hsupply pool i hc (Session.cache_window s h n).1 := by
  obtain ⟨h1, h2, h3, h4, h5⟩ := hInv
  have hmemn : dmem s.byName n = false := by rw [dmem, hn]; rfl
  have hmemh : dmem s.byHandle h = false := by rw [dmem, hh]; rfl
  refine ⟨WinInv.cachePreserved s h1 h n hn hh, ?_, ?_, ?_, ?_⟩
  · intro p hp
    simp only [Session.cache_window] at hp
    rw [dset_eq_append _ _ _ hmemh, List.mem_append] at hp
    simp only [Session.cache_window]
    rcases hp with hp | hp
    · exact h2 p hp
    · simp only [List.mem_singleton] at hp
      subst hp
      exact hrem
  · intro hx hmem
    simp only [Session.cache_window] at hmem
    exact h3 hx hmem
  · intro p hp
    simp only [Session.cache_window] at hp
    rw [dset_eq_append _ _ _ hmemn, List.mem_append] at hp
    rcases hp with hp | hp
    · exact h4 p hp
    · simp only [List.mem_singleton] at hp
      subst hp
      exact hname
  · intro hx hmem
    simp only [Session.cache_window] at hmem ⊢
    exact h5 hx hmem

theorem SInv.removeStep (fresh hsupply : Nat → String) (pool : List String)
    (i hc : Nat) (s : WinState) (hInv : SInv fresh hsupply pool i hc s)
    (w : Window) :
    SInv fresh hsupply pool i hc (Session.remove_window s w).1 := by
  obtain ⟨h1, h2, h3, h4, h5⟩ := hInv
  have hWI := WinInv.removePreserved s h1 w
  unfold Session.remove_window at hWI ⊢
  cases hg : dget s.byName w.name with
  | some win =>
    rw [hg] at hWI
    refine ⟨hWI, ?_, h3, ?_, h5⟩
    · intro p hp
      exact h2 p (mem_dpop _ _ _ hp)
    · intro p hp
      exact h4 p (mem_dpop _ _ _ hp)
  | none =>
    rw [hg] at hWI
    cases hg2 : dget s.byHandle w.name with
    | some win =>
      rw [hg2] at hWI
      refine ⟨hWI, ?_, h3, ?_, h5⟩
      · intro p hp
        exact h2 p (mem_dpop _ _ _ hp)
      · intro p hp
        exact h4 p (mem_dpop _ _ _ hp)
    | none =>
      rw [hg2] at hWI
      exact ⟨hWI, h2, h3, h4, h5⟩

theorem dmem_false_dget {α : Type} (d : List (String × α)) (k : String)
    (h : dmem d k = false) : dget d k = none := by
  rw [dmem] at h
  cases hg : dget d k with
  | none => rfl
  | some v => rw [hg] at h; simp at h

theorem cache_window_remote (s : WinState) (h n : String) :
    (Session.cache_window s h n).1.remote = s.remote := rfl

theorem cache_window_active (s : WinState) (h n : String) :
    (Session.cache_window s h n).1.active = s.active := rfl

theorem SInv.dropClosed (fresh hsupply : Nat → String) (pool : List String)
    (i hc : Nat) (handles : List String) :
    ∀ (ks : List String) (s : WinState), SInv fresh hsupply pool i hc s →
    SInv fresh hsupply pool i hc (Session.dropClosed handles ks s) ∧
    (Session.dropClosed handles ks s).remote = s.remote ∧
    (Session.dropClosed handles ks s).active = s.active ∧
    (∀ p ∈ (Session.dropClosed handles ks s).byName, p ∈ s.byName) := by
  intro ks
  induction ks with
  | nil => intro s hInv; exact ⟨hInv, rfl, rfl, fun p hp => hp⟩
  | cons h rest ih =>
    intro s hInv
    unfold Session.dropClosed
    by_cases hm : h ∈ handles
    · rw [if_pos hm]
      exact ih s hInv
    · rw [if_neg hm]
      cases hg : dget s.byHandle h with
      | none => exact ih s hInv
      | some win =>
        have hmemH := dget_some_mem _ _ _ hg
        obtain ⟨hh, hn⟩ := hInv.1.2.2.2 (h, win) hmemH
        have hWI : WinInv
            { s with
                byHandle := dpop s.byHandle h,
                byName := dpop s.byName win.name } :=
          WinInv.remove_entry s hInv.1 win.name h win hn hg rfl hh
        have hInv' : SInv fresh hsupply pool i hc
            { s with
                byHandle := dpop s.byHandle h,
                byName := dpop s.byName win.name } := by
          obtain ⟨h1, h2, h3, h4, h5⟩ := hInv
          refine ⟨hWI, ?_, h3, ?_, h5⟩
          · intro p hp
            exact h2 p (mem_dpop _ _ _ hp)
          · intro p hp
            exact h4 p (mem_dpop _ _ _ hp)
        obtain ⟨r1, r2, r3, r4⟩ := ih _ hInv'
        exact ⟨r1, r2, r3, fun p hp => mem_dpop _ _ _ (r4 p hp)⟩

theorem SInv.cacheNew (fresh hsupply : Nat → String) (pool : List String)
    (hc : Nat) (hsup : SupplyOK fresh pool) :
    ∀ (handles : List String) (s : WinState) (i : Nat),
    SInv fresh hsupply pool i hc s → (∀ h ∈ handles, h ∈ s.remote) →
    SInv fresh hsupply pool (Session.cacheNew fresh handles s i).2 hc
        (Session.cacheNew fresh handles s i).1 ∧
    i ≤ (Session.cacheNew fresh handles s i).2 ∧
    (Session.cacheNew fresh handles s i).1.remote = s.remote ∧
    (Session.cacheNew fresh handles s i).1.active = s.active ∧
    AddedNamesFresh fresh s (Session.cacheNew fresh handles s i).1 := by
  intro handles
  induction handles with
  | nil =>
    intro s i hInv _
    exact ⟨hInv, le_rfl, rfl, rfl, fun p hp => Or.inl hp⟩
  | cons h rest ih =>
    intro s i hInv hsub
    unfold Session.cacheNew
    by_cases hm : dmem s.byHandle h = true
    · rw [if_pos hm]
      exact ih s i hInv (fun x hx => hsub x (List.mem_cons_of_mem _ hx))
    · have hm' : dmem s.byHandle h = false := by
        cases hb : dmem s.byHandle h
        · rfl
        · exact absurd hb hm
      rw [if_neg hm]
      have hh : dget s.byHandle h = none := dmem_false_dget _ _ hm'
      have hn : dget s.byName (fresh i) = none :=
        SInv.freshName_none fresh hsupply pool i hc s hsup hInv i le_rfl
      have hrem : h ∈ s.remote := hsub h (List.mem_cons_self h rest)
      have hInv1 : SInv fresh hsupply pool (i + 1) hc
          (Session.cache_window s h (fresh i)).1 :=
        SInv.cacheStep fresh hsupply pool (i + 1) hc s
          (SInv.mono fresh hsupply pool i hc (i + 1) hc s (by omega) le_rfl hInv)
          h (fresh i) hn hh hrem (Or.inr ⟨i, by omega, rfl⟩)
      have hsub1 : ∀ x ∈ rest, x ∈ (Session.cache_window s h (fresh i)).1.remote := by
        intro x hx
        rw [cache_window_remote]
        exact hsub x (List.mem_cons_of_mem _ hx)
      obtain ⟨r1, r2, r3, r4, r5⟩ := ih _ (i + 1) hInv1 hsub1
      refine ⟨r1, by omega, ?_, ?_, ?_⟩
      · rw [r3, cache_window_remote]
      · rw [r4, cache_window_active]
      · intro p hp
        rcases r5 p hp with hp1 | hp1
        · have hmemn : dmem s.byName (fresh i) = false := by rw [dmem, hn]; rfl
          simp only [Session.cache_window] at hp1
          rw [dset_eq_append _ _ _ hmemn, List.mem_append] at hp1
          rcases hp1 with hp1 | hp1
          · exact Or.inl hp1
          · simp only [List.mem_singleton] at hp1
            exact Or.inr ⟨i, by rw [hp1]⟩
        · exact Or.inr hp1

theorem SInv.windowsRead (fresh hsupply : Nat → String) (pool : List String)
    (i hc : Nat) (hsup : SupplyOK fresh pool) (s : WinState)
    (hInv : SInv fresh hsupply pool i hc s) :
    SInv fresh hsupply pool (Session.windows fresh s i).2.2 hc
        (Session.windows fresh s i).1 ∧
    i ≤ (Session.windows fresh s i).2.2 ∧
    (Session.windows fresh s i).1.remote = s.remote ∧
    (Session.windows fresh s i).1.active = s.active ∧
    AddedNamesFresh fresh s (Session.windows fresh s i).1 ∧
    (∀ w ∈ (Session.windows fresh s i).2.1,
      dget (Session.windows fresh s i).1.byName w.name = some w ∧
      dget (Session.windows fresh s i).1.byHandle w.handle = some w) := by
  unfold Session.windows
  by_cases hr : s.remote = []
  · rw [if_pos hr]
    refine ⟨⟨⟨?_, ?_, ?_, ?_⟩, ?_, ?_, ?_, ?_⟩, le_rfl, rfl, rfl, ?_, ?_⟩
    · simp [NodupK]
    · simp [NodupK]
    · intro p hp; simp at hp
    · intro p hp; simp at hp
    · intro p hp; simp at hp
    · exact hInv.2.2.1
    · intro p hp; simp at hp
    · exact hInv.2.2.2.2
    · intro p hp; simp at hp
    · intro w hw; simp at hw
  · rw [if_neg hr]
    obtain ⟨d1, d2, d3, d4⟩ :=
      SInv.dropClosed fresh hsupply pool i hc s.remote (dkeys s.byHandle) s hInv
    have hsub : ∀ h ∈ s.remote,
        h ∈ (Session.dropClosed s.remote (dkeys s.byHandle) s).remote := by
      intro h hh
      rw [d2]
      exact hh
    obtain ⟨c1, c2, c3, c4, c5⟩ :=
      SInv.cacheNew fresh hsupply pool hc hsup s.remote _ i d1 hsub
    refine ⟨c1, c2, by rw [c3, d2], by rw [c4, d3], ?_, ?_⟩
    · intro p hp
      rcases c5 p hp with hp1 | hp1
      · exact Or.inl (d4 p hp1)
      · exact Or.inr hp1
    · intro w hw
      simp only [dvalues, List.mem_map] at hw
      obtain ⟨p, hp, hpw⟩ := hw
      obtain ⟨he1, he2⟩ := c1.1.2.2.2 p hp
      subst hpw
      refine ⟨he2, ?_⟩
      rw [he1]
      have : p = (p.1, p.2) := rfl
      exact mem_dget _ _ _ c1.1.2.1 (by rw [← this]; exact hp)

theorem mem_dpop_ne_key {α : Type} (d : List (String × α)) (k : String)
    (p : String × α) (hNd : NodupK d) (hp : p ∈ dpop d k) : p.1 ≠ k := by
  intro he
  have h1 : dget (dpop d k) p.1 = some p.2 :=
    mem_dget _ _ _ (nodupK_dpop _ _ hNd) (by
      have hpp : p = (p.1, p.2) := rfl
      rw [← hpp]; exact hp)
  rw [he, dget_dpop_self _ _ hNd] at h1
  cases h1

theorem SInv.activeWindow (fresh hsupply : Nat → String) (pool : List String)
    (i hc : Nat) (hsup : SupplyOK fresh pool) (s : WinState)
    (hInv : SInv fresh hsupply pool i hc s) :
    SInv fresh hsupply pool (Session.active_window fresh s i).2.2 hc
        (Session.active_window fresh s i).1 ∧
    i ≤ (Session.active_window fresh s i).2.2 ∧
    (Session.active_window fresh s i).1.remote = s.remote ∧
    (Session.active_window fresh s i).1.active = s.active ∧
    (∀ w, (Session.active_window fresh s i).2.1 = some w →
      dget (Session.active_window fresh s i).1.byName w.name = some w ∧
      dget (Session.active_window fresh s i).1.byHandle w.handle = some w) := by
  unfold Session.active_window
  split
  · exact ⟨hInv, le_rfl, rfl, rfl, fun w hw => by cases hw⟩
  · rename_i h hah
    have hrem : h ∈ s.remote := by
      unfold Session.active_window_handle at hah
      by_cases hr : s.remote = []
      · rw [if_pos hr] at hah; cases hah
      · rw [if_neg hr] at hah
        exact hInv.2.2.2.2 h hah
    split
    · rename_i w hg
      have hmem := dget_some_mem _ _ _ hg
      obtain ⟨he1, he2⟩ := hInv.1.2.2.2 (h, w) hmem
      refine ⟨hInv, le_rfl, rfl, rfl, ?_⟩
      intro w1 hw1
      simp only [Option.some.injEq] at hw1
      subst hw1
      refine ⟨he2, ?_⟩
      rw [he1]
      exact hg
    · rename_i hg
      have hn : dget s.byName (fresh i) = none :=
        SInv.freshName_none fresh hsupply pool i hc s hsup hInv i le_rfl
      have hInv1 : SInv fresh hsupply pool (i + 1) hc
          (Session.cache_window s h (fresh i)).1 :=
        SInv.cacheStep fresh hsupply pool (i + 1) hc s
          (SInv.mono fresh hsupply pool i hc (i + 1) hc s (by omega) le_rfl hInv)
          h (fresh i) hn hg hrem (Or.inr ⟨i, by omega, rfl⟩)
      refine ⟨hInv1, by show i ≤ i + 1; omega, cache_window_remote _ _ _,
        cache_window_active _ _ _, ?_⟩
      intro w1 hw1
      simp only [Option.some.injEq] at hw1
      subst hw1
      exact ⟨dget_dset_self _ _ _, dget_dset_self _ _ _⟩

theorem SInv.getWindow (fresh hsupply : Nat → String) (pool : List String)
    (i hc : Nat) (hsup : SupplyOK fresh pool) (s : WinState)
    (hInv : SInv fresh hsupply pool i hc s) (window : String) :
    SInv fresh hsupply pool (Session.get_window fresh s i window).2.2 hc
        (Session.get_window fresh s i window).1 ∧
    i ≤ (Session.get_window fresh s i window).2.2 ∧
    (Session.get_window fresh s i window).1.remote = s.remote ∧
    (Session.get_window fresh s i window).1.active = s.active ∧
    AddedNamesFresh fresh s (Session.get_window fresh s i window).1 ∧
    (∀ w, (Session.get_window fresh s i window).2.1 = some w →
      dget (Session.get_window fresh s i window).1.byName w.name = some w ∧
      dget (Session.get_window fresh s i window).1.byHandle w.handle = some w) := by
  unfold Session.get_window
  cases hg1 : dget s.byName window with
  | some w =>
    have hmem := dget_some_mem _ _ _ hg1
    obtain ⟨he1, he2⟩ := hInv.1.2.2.1 (window, w) hmem
    refine ⟨hInv, le_rfl, rfl, rfl, fun p hp => Or.inl hp, ?_⟩
    intro w1 hw1
    simp only [Option.some.injEq] at hw1
    subst hw1
    refine ⟨?_, he2⟩
    rw [he1]
    exact hg1
  | none =>
    cases hg2 : dget s.byHandle window with
    | some w =>
      have hmem := dget_some_mem _ _ _ hg2
      obtain ⟨he1, he2⟩ := hInv.1.2.2.2 (window, w) hmem
      refine ⟨hInv, le_rfl, rfl, rfl, fun p hp => Or.inl hp, ?_⟩
      intro w1 hw1
      simp only [Option.some.injEq] at hw1
      subst hw1
      refine ⟨he2, ?_⟩
      rw [he1]
      exact hg2
    | none =>
      obtain ⟨w1, w2, w3, w4, w5, w6⟩ :=
        SInv.windowsRead fresh hsupply pool i hc hsup s hInv
      refine ⟨w1, w2, w3, w4, w5, ?_⟩
      intro w hw
      exact w6 w (List.mem_of_find?_eq_some hw)

theorem SInv.switchWindow (fresh hsupply : Nat → String) (pool : List String)
    (i hc : Nat) (hsup : SupplyOK fresh pool) (s : WinState)
    (hInv : SInv fresh hsupply pool i hc s) (window : String) :
    SInv fresh hsupply pool (Session.switch_window fresh s i window).2.1 hc
        (Session.switch_window fresh s i window).1 ∧
    i ≤ (Session.switch_window fresh s i window).2.1 := by
  obtain ⟨g1, g2, g3, g4, g5, g6⟩ :=
    SInv.getWindow fresh hsupply pool i hc hsup s hInv window
  unfold Session.switch_window
  split
  · rename_i s1 i1 heq
    rw [heq] at g1 g2
    exact ⟨g1, g2⟩
  · rename_i s1 w i1 heq
    rw [heq] at g1 g2 g3 g4 g5 g6
    by_cases hr : s1.remote = []
    · rw [if_pos hr]
      exact ⟨g1, g2⟩
    · rw [if_neg hr]
      by_cases hw : w.handle ∈ s1.remote
      · rw [if_pos hw]
        obtain ⟨a1, a2, a3, a4, a5⟩ := g1
        refine ⟨⟨a1, a2, a3, a4, ?_⟩, g2⟩
        intro x hx
        simp only [Option.some.injEq] at hx
        rw [← hx]
        exact hw
      · rw [if_neg hw]
        obtain ⟨v1, v2, v3, v4, v5, v6⟩ :=
          SInv.windowsRead fresh hsupply pool i1 hc hsup s1 g1
        split
        · rename_i s2 wins i2 heq2
          rw [heq2] at v1 v2 v3 v4 v5 v6
          have hg2 : i ≤ i1 := g2
          have hv2 : i1 ≤ i2 := v2
          split
          · rename_i w2 hfind
            by_cases hr2 : s2.remote = []
            · rw [if_pos hr2]
              exact ⟨v1, show i ≤ i2 by omega⟩
            · rw [if_neg hr2]
              by_cases hw2 : w2.handle ∈ s2.remote
              · rw [if_pos hw2]
                obtain ⟨a1, a2, a3, a4, a5⟩ := v1
                refine ⟨⟨a1, a2, a3, a4, ?_⟩, show i ≤ i2 by omega⟩
                intro x hx
                simp only [Option.some.injEq] at hx
                rw [← hx]
                exact hw2
              · rw [if_neg hw2]
                exact ⟨v1, show i ≤ i2 by omega⟩
          · rename_i hfind
            exact ⟨v1, show i ≤ i2 by omega⟩

theorem SInv.renameWindow (fresh hsupply : Nat → String) (pool : List String)
    (i hc : Nat) (hsup : SupplyOK fresh pool) (s : WinState)
    (hInv : SInv fresh hsupply pool i hc s) (window new_name : String)
    (hpool : new_name ∈ pool) :
    SInv fresh hsupply pool
        (Session.rename_window fresh s i window new_name).2.1 hc
        (Session.rename_window fresh s i window new_name).1 ∧
    i ≤ (Session.rename_window fresh s i window new_name).2.1 := by
  unfold Session.rename_window
  by_cases h0 : new_name = ""
  · rw [if_pos h0]
    exact ⟨hInv, le_rfl⟩
  · rw [if_neg h0]
    by_cases h1 : dmem s.byName new_name = true
    · rw [if_pos h1]
      exact ⟨hInv, le_rfl⟩
    · have h1f : dmem s.byName new_name = false := by
        cases hb : dmem s.byName new_name
        · rfl
        · exact absurd hb h1
      rw [if_neg h1]
      obtain ⟨g1, g2, g3, g4, g5, g6⟩ :=
        SInv.getWindow fresh hsupply pool i hc hsup s hInv window
      split
      · rename_i s1 i1 heq
        rw [heq] at g1 g2
        exact ⟨g1, g2⟩
      · rename_i s1 w i1 heq
        rw [heq] at g1 g2 g3 g4 g5 g6
        obtain ⟨hwn, hwh⟩ := g6 w rfl
        have hg2 : i ≤ i1 := g2
        have hs2 : SInv fresh hsupply pool i1 hc (Session.remove_window s1 w).1 :=
          SInv.removeStep fresh hsupply pool i1 hc s1 g1 w
        have hrm : (Session.remove_window s1 w).1
            = { s1 with byName := dpop s1.byName w.name,
                        byHandle := dpop s1.byHandle w.handle } := by
          unfold Session.remove_window
          rw [hwn]
        rw [hrm] at hs2
        have hn2 : dget (dpop s1.byName w.name) new_name = none := by
          cases hg : dget (dpop s1.byName w.name) new_name with
          | none => rfl
          | some w2 =>
            exfalso
            have hmem := mem_dpop _ _ _ (dget_some_mem _ _ _ hg)
            rcases g5 (new_name, w2) hmem with hm | ⟨j, hj⟩
            · have : dmem s.byName new_name = true := by
                rw [dmem, mem_dget _ _ _ hInv.1.1 hm]
                rfl
              rw [this] at h1f
              cases h1f
            · exact hsup.2 j (hj ▸ hpool)
        have hh2 : dget (dpop s1.byHandle w.handle) w.handle = none :=
          dget_dpop_self _ _ g1.1.2.1
        have hrem2 : w.handle ∈ s1.remote :=
          g1.2.1 (w.handle, w) (dget_some_mem _ _ _ hwh)
        have hcache := SInv.cacheStep fresh hsupply pool i1 hc
          { s1 with byName := dpop s1.byName w.name,
                    byHandle := dpop s1.byHandle w.handle }
          hs2 w.handle new_name hn2 hh2 hrem2 (Or.inl hpool)
        rw [hrm]
        exact ⟨hcache, hg2⟩

theorem SInv.closeStep (fresh hsupply : Nat → String) (pool : List String)
    (i1 hc : Nat) (s1 : WinState)
    (hInv1 : SInv fresh hsupply pool i1 hc s1) (w : Window)
    (hwn : dget s1.byName w.name = some w)
    (hwh : dget s1.byHandle w.handle = some w) :
    SInv fresh hsupply pool i1 hc
      (Session.remove_window
        { s1 with remote := s1.remote.erase w.handle, active := none } w).1 := by
  unfold Session.remove_window
  split
  · rename_i win hwin
    have hwin1 : dget s1.byName w.name = some win := hwin
    rw [hwn] at hwin1
    have hww : win = w := by
      simpa using hwin1.symm
    subst hww
    obtain ⟨h1, h2, h3, h4, h5⟩ := hInv1
    refine ⟨?_, ?_, ?_, ?_, ?_⟩
    · exact WinInv.remove_entry
        { s1 with remote := s1.remote.erase win.handle, active := none }
        h1 win.name win.handle win hwn hwh rfl rfl
    · intro p hp
      have hpd : p ∈ dpop s1.byHandle win.handle := hp
      have hne : p.1 ≠ win.handle := mem_dpop_ne_key _ _ _ h1.2.1 hpd
      have hmem : p.1 ∈ s1.remote := h2 p (mem_dpop _ _ _ hpd)
      exact (List.mem_erase_of_ne hne).mpr hmem
    · intro hx hmem
      exact h3 hx (List.erase_subset _ _ hmem)
    · intro p hp
      exact h4 p (mem_dpop _ _ _ hp)
    · intro hx hmem
      cases hmem
  · rename_i hwin
    split
    · rename_i win hwin2
      exfalso
      have hwin1 : dget s1.byName w.name = none := hwin
      rw [hwn] at hwin1
      cases hwin1
    · exfalso
      rename_i hwin2
      have hwin1 : dget s1.byName w.name = none := hwin
      rw [hwn] at hwin1
      cases hwin1

theorem SInv.closeRandom (fresh hsupply : Nat → String) (pool : List String)
    (i hc : Nat) (hsup : SupplyOK fresh pool) (s : WinState)
    (hInv : SInv fresh hsupply pool i hc s) :
    SInv fresh hsupply pool (Session.closeRandom fresh s i).2.1 hc
        (Session.closeRandom fresh s i).1 ∧
    i ≤ (Session.closeRandom fresh s i).2.1 := by
  unfold Session.closeRandom
  obtain ⟨v1, v2, v3, v4, v5, v6⟩ :=
    SInv.windowsRead fresh hsupply pool i hc hsup s hInv
  split
  · rename_i s1 i1 heq
    rw [heq] at v1 v2
    exact ⟨v1, v2⟩
  · rename_i s1 w0 ws i1 heq
    rw [heq] at v1 v2 v3 v4 v5 v6
    have hv2 : i ≤ i1 := v2
    obtain ⟨sw1, sw2⟩ :=
      SInv.switchWindow fresh hsupply pool i1 hc hsup s1 v1 w0.name
    split
    · rename_i s2 i2 w2 heq2
      rw [heq2] at sw1 sw2
      exact ⟨sw1, show i ≤ i2 from le_trans hv2 sw2⟩
    · rename_i s2 i2 e heq2
      rw [heq2] at sw1 sw2
      exact ⟨sw1, show i ≤ i2 from le_trans hv2 sw2⟩

theorem SInv.closeWindow (fresh hsupply : Nat → String) (pool : List String)
    (i hc : Nat) (hsup : SupplyOK fresh pool) (s : WinState)
    (hInv : SInv fresh hsupply pool i hc s) (switchTo : Option String) :
    SInv fresh hsupply pool (Session.close_window fresh s i switchTo).2.1 hc
        (Session.close_window fresh s i switchTo).1 ∧
    i ≤ (Session.close_window fresh s i switchTo).2.1 := by
  unfold Session.close_window
  obtain ⟨a1, a2, a3, a4, a6⟩ :=
    SInv.activeWindow fresh hsupply pool i hc hsup s hInv
  split
  · rename_i s1 i1 heq
    rw [heq] at a1 a2
    exact ⟨a1, a2⟩
  · rename_i s1 w i1 heq
    rw [heq] at a1 a2 a3 a4 a6
    have ha2 : i ≤ i1 := a2
    obtain ⟨hwn, hwh⟩ := a6 w rfl
    have hstep := SInv.closeStep fresh hsupply pool i1 hc s1 a1 w hwn hwh
    cases switchTo with
    | some target =>
      dsimp only
      obtain ⟨sw1, sw2⟩ :=
        SInv.switchWindow fresh hsupply pool i1 hc hsup _ hstep target
      split
      · rename_i s4 i4 w4 heq2
        rw [heq2] at sw1 sw2
        exact ⟨sw1, show i ≤ i4 from le_trans ha2 sw2⟩
      · rename_i s4 i4 e heq2
        rw [heq2] at sw1 sw2
        have hsw2 : i1 ≤ i4 := sw2
        by_cases he : e = Err.invalidSessionId
        · rw [if_pos he]
          exact ⟨sw1, show i ≤ i4 from le_trans ha2 hsw2⟩
        · rw [if_neg he]
          obtain ⟨cr1, cr2⟩ :=
            SInv.closeRandom fresh hsupply pool i4 hc hsup s4 sw1
          exact ⟨cr1, le_trans (le_trans ha2 hsw2) cr2⟩
    | none =>
      dsimp only
      obtain ⟨cr1, cr2⟩ :=
        SInv.closeRandom fresh hsupply pool i1 hc hsup _ hstep
      exact ⟨cr1, le_trans ha2 cr2⟩

theorem SInv.startSessionStd (fresh hsupply : Nat → String) (pool : List String)
    (i hc : Nat) (s : WinState) (hInv : SInv fresh hsupply pool i hc s)
    (hbn : s.byName = []) (hbh : s.byHandle = []) (newId : String)
    (hdef : "default" ∈ pool) :
    SInv fresh hsupply pool i (hc + 1)
      (Session.start_session_res s [("sessionId", JVal.str newId)]
        [hsupply hc] (some (hsupply hc))).1 := by
  have hparse : Session.parse_session_id [("sessionId", JVal.str newId)]
      = (if newId = "" then Except.error Err.invalidSessionId
         else Except.ok newId) := by
    by_cases h0 : newId = ""
    · simp [Session.parse_session_id, Session.parse_session_id_nested, dget, h0]
    · simp [Session.parse_session_id, Session.parse_session_id_nested, dget, h0]
  unfold Session.start_session_res
  rw [hparse]
  by_cases h0 : newId = ""
  · rw [if_pos h0]
    exact SInv.mono fresh hsupply pool i hc i (hc + 1) s le_rfl (by omega) hInv
  · rw [if_neg h0]
    dsimp only
    have hInv1 : SInv fresh hsupply pool i (hc + 1)
        { s with sessionId := newId, remote := [hsupply hc],
                 active := some (hsupply hc) } := by
      refine ⟨⟨?_, ?_, ?_, ?_⟩, ?_, ?_, ?_, ?_⟩
      · show NodupK s.byName
        rw [hbn]
        simp [NodupK]
      · show NodupK s.byHandle
        rw [hbh]
        simp [NodupK]
      · intro p hp
        have hp2 : p ∈ s.byName := hp
        rw [hbn] at hp2
        cases hp2
      · intro p hp
        have hp2 : p ∈ s.byHandle := hp
        rw [hbh] at hp2
        cases hp2
      · intro p hp
        have hp2 : p ∈ s.byHandle := hp
        rw [hbh] at hp2
        cases hp2
      · intro h hmem
        simp only [List.mem_singleton] at hmem
        exact ⟨hc, by omega, hmem⟩
      · intro p hp
        have hp2 : p ∈ s.byName := hp
        rw [hbn] at hp2
        cases hp2
      · intro h heq
        have heq2 : some (hsupply hc) = some h := heq
        simp only [Option.some.injEq] at heq2
        show h ∈ [hsupply hc]
        rw [← heq2]
        simp
    split
    · rename_i hah
      have hah2 : (if ([hsupply hc] : List String) = []
          then (none : Option String) else some (hsupply hc)) = none := hah
      simp at hah2
    · rename_i h hah
      have hah2 : (if ([hsupply hc] : List String) = []
          then (none : Option String) else some (hsupply hc)) = some h := hah
      rw [if_neg (by simp : ¬([hsupply hc] : List String) = [])] at hah2
      simp only [Option.some.injEq] at hah2
      by_cases hhe : h = ""
      · rw [if_pos hhe]
        exact hInv1
      · rw [if_neg hhe]
        have hcache := SInv.cacheStep fresh hsupply pool i (hc + 1)
          { s with sessionId := newId, remote := [hsupply hc],
                   active := some (hsupply hc) }
          hInv1 h "default"
          (by show dget s.byName "default" = none
              rw [hbn]
              rfl)
          (by show dget s.byHandle h = none
              rw [hbh]
              rfl)
          (by show h ∈ [hsupply hc]
              rw [← hah2]
              simp)
          (Or.inl hdef)
        exact hcache

theorem SInv.newWindow (fresh hsupply : Nat → String) (pool : List String)
    (i hc : Nat) (hsup : SupplyOK fresh pool)
    (hinj : Function.Injective hsupply) (s : WinState)
    (hInv : SInv fresh hsupply pool i hc s) (name newId : String) (sw : Bool)
    (hpool : name ∈ pool) (hdef : "default" ∈ pool) :
    SInv fresh hsupply pool
        (Session.new_window fresh hsupply s i hc name newId sw).2.1
        (Session.new_window fresh hsupply s i hc name newId sw).2.2.1
        (Session.new_window fresh hsupply s i hc name newId sw).1 ∧
    i ≤ (Session.new_window fresh hsupply s i hc name newId sw).2.1 ∧
    hc ≤ (Session.new_window fresh hsupply s i hc name newId sw).2.2.1 := by
  unfold Session.new_window
  by_cases h0 : name = ""
  · rw [if_pos h0]
    exact ⟨hInv, le_rfl, le_rfl⟩
  · rw [if_neg h0]
    by_cases h1 : dmem s.byName name = true
    · rw [if_pos h1]
      exact ⟨hInv, le_rfl, le_rfl⟩
    · have h1f : dmem s.byName name = false := by
        cases hb : dmem s.byName name
        · rfl
        · exact absurd hb h1
      rw [if_neg h1]
      by_cases hr : s.remote = []
      · rw [if_pos hr]
        have hbh : s.byHandle = [] := by
          rw [List.eq_nil_iff_forall_not_mem]
          intro p hp
          have := hInv.2.1 p hp
          rw [hr] at this
          cases this
        have hbn : s.byName = [] := by
          rw [List.eq_nil_iff_forall_not_mem]
          intro p hp
          have := (hInv.1.2.2.1 p hp).2
          rw [hbh] at this
          cases this
        have hstd := SInv.startSessionStd fresh hsupply pool i hc s hInv
          hbn hbh newId hdef
        split
        · rename_i s1 w heq
          rw [heq] at hstd
          exact ⟨hstd, le_rfl, show hc ≤ hc + 1 by omega⟩
        · rename_i s1 e heq
          rw [heq] at hstd
          exact ⟨hstd, le_rfl, show hc ≤ hc + 1 by omega⟩
      · rw [if_neg hr]
        obtain ⟨hnr, hnh⟩ :=
          SInv.newHandle_none fresh hsupply pool i hc s hinj hInv
        have hInvE : SInv fresh hsupply pool i (hc + 1)
            { s with remote := s.remote ++ [hsupply hc] } := by
          obtain ⟨h1, h2, h3, h4, h5⟩ := hInv
          refine ⟨h1, ?_, ?_, h4, ?_⟩
          · intro p hp
            exact List.mem_append_left _ (h2 p hp)
          · intro h hmem
            rw [List.mem_append] at hmem
            rcases hmem with hmem | hmem
            · obtain ⟨j, hj, he⟩ := h3 h hmem
              exact ⟨j, by omega, he⟩
            · simp only [List.mem_singleton] at hmem
              exact ⟨hc, by omega, hmem⟩
          · intro h heq
            exact List.mem_append_left _ (h5 h heq)
        have hcache := SInv.cacheStep fresh hsupply pool i (hc + 1)
          { s with remote := s.remote ++ [hsupply hc] } hInvE
          (hsupply hc) name
          (dmem_false_dget _ _ h1f) hnh
          (List.mem_append_right _ (List.mem_singleton.mpr rfl)) (Or.inl hpool)
        cases hsw : sw
        · simp only [Bool.false_eq_true, if_false]
          exact ⟨hcache, le_rfl, by omega⟩
        · simp only [if_true]
          obtain ⟨sw1, sw2⟩ := SInv.switchWindow fresh hsupply pool i (hc + 1)
            hsup _ hcache name
          split
          · rename_i s2 i2 w2 heq2
            rw [heq2] at sw1 sw2
            exact ⟨sw1, sw2, show hc ≤ hc + 1 by omega⟩
          · rename_i s2 i2 e heq2
            rw [heq2] at sw1 sw2
            exact ⟨sw1, sw2, show hc ≤ hc + 1 by omega⟩

/-- The Session window operations named by the claim, with the remote data
each one consumes: the id a fresh handshake would be issued, the chosen
window name, the switch flag, the target of a switch/rename/close. -/
inductive WinOp where
  | start (newId : String)
  | newWindow (name newId : String) (switch : Bool)
  | switchWindow (target : String)
  | renameWindow (target newName : String)
  | closeWindow (switchTo : Option String)
  | readWindows
deriving Repr, DecidableEq

/-- A running session: window state plus the supply counters for generated
uuid names (`fctr`) and remote-issued window handles (`hctr`). -/
structure SessionRun where
  st : WinState
  fctr : Nat
  hctr : Nat
deriving Repr, DecidableEq

/-- Execute one window operation against the conforming remote: handles the
remote issues are drawn from the injective supply `hsupply` at the handle
counter, generated uuid names from `fresh` at the name counter. -/
def Session.step (fresh hsupply : Nat → String) (r : SessionRun) :
    WinOp → SessionRun
  | .start newId =>
    ⟨(Session.start_session_res r.st [("sessionId", JVal.str newId)]
        [hsupply r.hctr] (some (hsupply r.hctr))).1, r.fctr, r.hctr + 1⟩
  | .newWindow name newId sw =>
    let out := Session.new_window fresh hsupply r.st r.fctr r.hctr name newId sw
    ⟨out.1, out.2.1, out.2.2.1⟩
  | .switchWindow target =>
    let out := Session.switch_window fresh r.st r.fctr target
    ⟨out.1, out.2.1, r.hctr⟩
  | .renameWindow target newName =>
    let out := Session.rename_window fresh r.st r.fctr target newName
    ⟨out.1, out.2.1, r.hctr⟩
  | .closeWindow switchTo =>
    let out := Session.close_window fresh r.st r.fctr switchTo
    ⟨out.1, out.2.1, r.hctr⟩
  | .readWindows =>
    let out := Session.windows fresh r.st r.fctr
    ⟨out.1, out.2.2, r.hctr⟩

/-- Which operations are meaningful in a run: `start` only on a session
whose caches are empty (a freshly constructed or fully closed session), and
caller-chosen window names (plus the reserved "default") drawn from the
name pool that the uuid supply avoids. -/
def Session.wfOp (pool : List String) (r : SessionRun) : WinOp → Prop
  | .start _ => r.st.byName = [] ∧ r.st.byHandle = [] ∧ "default" ∈ pool
  | .newWindow name _ _ => name ∈ pool ∧ "default" ∈ pool
  | .renameWindow _ newName => newName ∈ pool
  | .switchWindow _ => True
  | .closeWindow _ => True
  | .readWindows => True

instance (pool : List String) (r : SessionRun) (op : WinOp) :
    Decidable (Session.wfOp pool r op) := by
  cases op <;> (unfold Session.wfOp; infer_instance)

/-- Well-formedness of a whole operation sequence, checked along the run. -/
def Session.wfSeq (fresh hsupply : Nat → String) (pool : List String) :
    SessionRun → List WinOp → Prop
  | _, [] => True
  | r, op :: ops => Session.wfOp pool r op ∧
      Session.wfSeq fresh hsupply pool (Session.step fresh hsupply r op) ops

instance instWfSeqDec (fresh hsupply : Nat → String) (pool : List String) :
    ∀ (r : SessionRun) (ops : List WinOp),
      Decidable (Session.wfSeq fresh hsupply pool r ops)
  | _, [] => .isTrue trivial
  | r, op :: ops => by
    unfold Session.wfSeq
    have := instWfSeqDec fresh hsupply pool (Session.step fresh hsupply r op) ops
    infer_instance

/-- Execute a sequence of window operations. -/
def Session.run (fresh hsupply : Nat → String) (r : SessionRun) :
    List WinOp → SessionRun
  | [] => r
  | op :: ops => Session.run fresh hsupply (Session.step fresh hsupply r op) ops

/-- The window state of a freshly constructed Session
(`Session.__init__`): empty indexes, no remote session yet. -/
def Session.initialRun : SessionRun :=
  ⟨⟨[], [], [], none, ""⟩, 0, 0⟩

theorem SInv.step_preserved (fresh hsupply : Nat → String) (pool : List String)
    (hsup : SupplyOK fresh pool) (hinj : Function.Injective hsupply)
    (r : SessionRun) (hInv : SInv fresh hsupply pool r.fctr r.hctr r.st)
    (op : WinOp) (hwf : Session.wfOp pool r op) :
    SInv fresh hsupply pool (Session.step fresh hsupply r op).fctr
      (Session.step fresh hsupply r op).hctr
      (Session.step fresh hsupply r op).st := by
  cases op with
  | start newId =>
    obtain ⟨hbn, hbh, hdef⟩ := hwf
    exact SInv.startSessionStd fresh hsupply pool r.fctr r.hctr r.st hInv
      hbn hbh newId hdef
  | newWindow name newId sw =>
    obtain ⟨hpool, hdef⟩ := hwf
    exact (SInv.newWindow fresh hsupply pool r.fctr r.hctr hsup hinj r.st hInv
      name newId sw hpool hdef).1
  | switchWindow target =>
    exact (SInv.switchWindow fresh hsupply pool r.fctr r.hctr hsup r.st hInv
      target).1
  | renameWindow target newName =>
    exact (SInv.renameWindow fresh hsupply pool r.fctr r.hctr hsup r.st hInv
      target newName hwf).1
  | closeWindow switchTo =>
    exact (SInv.closeWindow fresh hsupply pool r.fctr r.hctr hsup r.st hInv
      switchTo).1
  | readWindows =>
    exact (SInv.windowsRead fresh hsupply pool r.fctr r.hctr hsup r.st hInv).1

theorem SInv.run_preserved (fresh hsupply : Nat → String) (pool : List String)
    (hsup : SupplyOK fresh pool) (hinj : Function.Injective hsupply) :
    ∀ (ops : List WinOp) (r : SessionRun),
    SInv fresh hsupply pool r.fctr r.hctr r.st →
    Session.wfSeq fresh hsupply pool r ops →
    SInv fresh hsupply pool (Session.run fresh hsupply r ops).fctr
      (Session.run fresh hsupply r ops).hctr
      (Session.run fresh hsupply r ops).st := by
  intro ops
  induction ops with
  | nil => intro r h _; exact h
  | cons op ops ih =>
    intro r h hwf
    obtain ⟨hwf1, hwf2⟩ := hwf
    exact ih _ (SInv.step_preserved fresh hsupply pool hsup hinj r h op hwf1)
      hwf2

theorem Session.initialRun_inv (fresh hsupply : Nat → String)
    (pool : List String) :
    SInv fresh hsupply pool 0 0 Session.initialRun.st := by
  refine ⟨⟨?_, ?_, ?_, ?_⟩, ?_, ?_, ?_, ?_⟩
  · simp [Session.initialRun, NodupK]
  · simp [Session.initialRun, NodupK]
  · intro p hp; cases hp
  · intro p hp; cases hp
  · intro p hp; cases hp
  · intro h hm; cases hm
  · intro p hp; cases hp
  · intro h heq; cases heq

/-- C1: after any well-formed sequence of Session window operations —
start, new_window, switch_window, rename_window, close_window and reads of
the windows property — against a conforming remote, the two window indexes
remain bijective: every cached Window is present in both indexes, keyed by
its name in one and by its handle in the other, and no two entries share a
name or a handle. -/
theorem Session.window_indexes_bijective (fresh hsupply : Nat → String)
    (pool : List String) (ops : List WinOp)
    (hsup : SupplyOK fresh pool) (hinj : Function.Injective hsupply)
    (hwf : Session.wfSeq fresh hsupply pool Session.initialRun ops) :
    WinInv (Session.run fresh hsupply Session.initialRun ops).st ∧
    (∀ n w,
      dget (Session.run fresh hsupply Session.initialRun ops).st.byName n
        = some w →
      n = w.name ∧
      dget (Session.run fresh hsupply Session.initialRun ops).st.byHandle
        w.handle = some w) ∧
    (∀ h w,
      dget (Session.run fresh hsupply Session.initialRun ops).st.byHandle h
        = some w →
      h = w.handle ∧
      dget (Session.run fresh hsupply Session.initialRun ops).st.byName
        w.name = some w) ∧
    (∀ n1 n2 w1 w2,
      dget (Session.run fresh hsupply Session.initialRun ops).st.byName n1
        = some w1 →
      dget (Session.run fresh hsupply Session.initialRun ops).st.byName n2
        = some w2 →
      n1 ≠ n2 → w1.name ≠ w2.name ∧ w1.handle ≠ w2.handle) := by
  have hrun := SInv.run_preserved fresh hsupply pool hsup hinj ops
    Session.initialRun (Session.initialRun_inv fresh hsupply pool) hwf
  set st := (Session.run fresh hsupply Session.initialRun ops).st with hst
  have hWI := hrun.1
  obtain ⟨hNd1, hNd2, hfwd, hbwd⟩ := hWI
  refine ⟨⟨hNd1, hNd2, hfwd, hbwd⟩, ?_, ?_, ?_⟩
  · intro n w hg
    obtain ⟨he1, he2⟩ := hfwd (n, w) (dget_some_mem _ _ _ hg)
    exact ⟨he1.symm, he2⟩
  · intro h w hg
    obtain ⟨he1, he2⟩ := hbwd (h, w) (dget_some_mem _ _ _ hg)
    exact ⟨he1.symm, he2⟩
  · intro n1 n2 w1 w2 hg1 hg2 hne
    obtain ⟨ha1, ha2⟩ := hfwd (n1, w1) (dget_some_mem _ _ _ hg1)
    obtain ⟨hb1, hb2⟩ := hfwd (n2, w2) (dget_some_mem _ _ _ hg2)
    have ha1x : w1.name = n1 := ha1
    have hb1x : w2.name = n2 := hb1
    have ha2x : dget st.byHandle w1.handle = some w1 := ha2
    have hb2x : dget st.byHandle w2.handle = some w2 := hb2
    constructor
    · intro hname
      exact hne (by rw [← ha1x, ← hb1x, hname])
    · intro hhandle
      apply hne
      have hw12 : w1 = w2 := by
        rw [hhandle, hb2x] at ha2x
        simpa using ha2x.symm
      rw [← ha1x, ← hb1x, hw12]

/-- Concrete injective string supply used by the witnesses: `j+1` copies of
one letter. -/
def uuidSupply (c : Char) (j : Nat) : String :=
  String.mk (List.replicate (j + 1) c)

theorem uuidSupply_injective (c : Char) : Function.Injective (uuidSupply c) := by
  intro a b hab
  have hdata := congrArg String.data hab
  simp only [uuidSupply] at hdata
  have hlen := congrArg List.length hdata
  simp only [List.length_replicate] at hlen
  omega

theorem uuidSupply_head (c : Char) (j : Nat) :
    (uuidSupply c j).data.head? = some c := by
  simp [uuidSupply, List.replicate_succ]

theorem uuidSupply_not_mem (c : Char) (pool : List String)
    (hpool : ∀ x ∈ pool, x.data.head? ≠ some c) (j : Nat) :
    uuidSupply c j ∉ pool := by
  intro hmem
  exact hpool _ hmem (uuidSupply_head c j)

/-- Name pool of the C1 witness run. -/
def c1pool : List String := ["default", "win1", "win2"]

/-- Operation sequence of the C1 witness run: start a session, open and
switch to a window, rename it, close the active window, read the windows. -/
def c1ops : List WinOp :=
  [.start "sid1", .newWindow "win1" "sid2" true,
   .renameWindow "win1" "win2", .closeWindow none, .readWindows]

/-- C1 witness: the bijectivity conclusion evaluated on a concrete run. -/
theorem Session.window_indexes_bijective_witness :
    (WinInv (Session.run (uuidSupply 'u') (uuidSupply 'h')
        Session.initialRun c1ops).st ∧
    (∀ n w,
      dget (Session.run (uuidSupply 'u') (uuidSupply 'h')
          Session.initialRun c1ops).st.byName n = some w →
      n = w.name ∧
      dget (Session.run (uuidSupply 'u') (uuidSupply 'h')
          Session.initialRun c1ops).st.byHandle w.handle = some w) ∧
    (∀ h w,
      dget (Session.run (uuidSupply 'u') (uuidSupply 'h')
          Session.initialRun c1ops).st.byHandle h = some w →
      h = w.handle ∧
      dget (Session.run (uuidSupply 'u') (uuidSupply 'h')
          Session.initialRun c1ops).st.byName w.name = some w) ∧
    (∀ n1 n2 w1 w2,
      dget (Session.run (uuidSupply 'u') (uuidSupply 'h')
          Session.initialRun c1ops).st.byName n1 = some w1 →
      dget (Session.run (uuidSupply 'u') (uuidSupply 'h')
          Session.initialRun c1ops).st.byName n2 = some w2 →
      n1 ≠ n2 → w1.name ≠ w2.name ∧ w1.handle ≠ w2.handle)) :=
  Session.window_indexes_bijective (uuidSupply 'u') (uuidSupply 'h')
    c1pool c1ops
    ⟨uuidSupply_injective 'u', uuidSupply_not_mem 'u' c1pool (by decide)⟩
    (uuidSupply_injective 'h')
    (by decide)

/-- C3: `new_window` called when all windows are closed — the remote
answers `NEW_WINDOW` with invalid-session-id (its window list is empty) and
the client cache is consistent with that — transparently performs a fresh
capability handshake: on return the session id has been replaced by the
freshly issued one, the remote session has exactly one (fresh) window, and
that window is the only cache entry, cached under the reserved name
"default". -/
theorem Session.new_window_resurrects (fresh hsupply : Nat → String)
    (s : WinState) (i hc : Nat) (name newId : String) (sw : Bool)
    (hname : name ≠ "") (hfree : dmem s.byName name = false)
    (hclosed : s.remote = [])
    (hcons : HandlesSub s) (hInvW : WinInv s)
    (hid : newId ≠ "") (hnew : newId ≠ s.sessionId) (hh : hsupply hc ≠ "") :
    Session.new_window fresh hsupply s i hc name newId sw
      = (⟨[("default", ⟨hsupply hc, "default"⟩)],
          [(hsupply hc, ⟨hsupply hc, "default"⟩)],
          [hsupply hc], some (hsupply hc), newId⟩,
         i, hc + 1, .ok ⟨hsupply hc, "default"⟩) ∧
    newId ≠ s.sessionId := by
  have hbh : s.byHandle = [] := by
    rw [List.eq_nil_iff_forall_not_mem]
    intro p hp
    have hmem := hcons p hp
    rw [hclosed] at hmem
    cases hmem
  have hbn : s.byName = [] := by
    rw [List.eq_nil_iff_forall_not_mem]
    intro p hp
    have hmem := (hInvW.2.2.1 p hp).2
    rw [hbh] at hmem
    cases hmem
  refine ⟨?_, hnew⟩
  have hres : Session.start_session_res s [("sessionId", JVal.str newId)]
      [hsupply hc] (some (hsupply hc))
      = (⟨[("default", ⟨hsupply hc, "default"⟩)],
          [(hsupply hc, ⟨hsupply hc, "default"⟩)],
          [hsupply hc], some (hsupply hc), newId⟩,
         .ok ⟨hsupply hc, "default"⟩) := by
    have hparse : Session.parse_session_id [("sessionId", JVal.str newId)]
        = .ok newId := by
      simp [Session.parse_session_id, Session.parse_session_id_nested, dget, hid]
    unfold Session.start_session_res
    rw [hparse]
    dsimp only
    split
    · rename_i hah
      have hah2 : (if ([hsupply hc] : List String) = []
          then (none : Option String) else some (hsupply hc)) = none := hah
      simp at hah2
    · rename_i h2 hah
      have hah2 : (if ([hsupply hc] : List String) = []
          then (none : Option String) else some (hsupply hc)) = some h2 := hah
      rw [if_neg (by simp : ¬([hsupply hc] : List String) = [])] at hah2
      simp only [Option.some.injEq] at hah2
      subst hah2
      rw [if_neg hh]
      simp [Session.cache_window, hbn, hbh, dset]
  unfold Session.new_window
  rw [if_neg hname]
  rw [if_neg (show ¬dmem s.byName name = true by rw [hfree]; simp)]
  rw [if_pos hclosed]
  rw [hres]

/-- C3 witness: a session with id "old" whose windows are all closed. -/
theorem Session.new_window_resurrects_witness :
    (Session.new_window (uuidSupply 'u') (uuidSupply 'h')
        ⟨[], [], [], none, "old"⟩ 0 0 "w" "new" true
      = (⟨[("default", ⟨uuidSupply 'h' 0, "default"⟩)],
          [(uuidSupply 'h' 0, ⟨uuidSupply 'h' 0, "default"⟩)],
          [uuidSupply 'h' 0], some (uuidSupply 'h' 0), "new"⟩,
         0, 0 + 1, .ok ⟨uuidSupply 'h' 0, "default"⟩) ∧
    "new" ≠ "old") :=
  Session.new_window_resurrects (uuidSupply 'u') (uuidSupply 'h')
    ⟨[], [], [], none, "old"⟩ 0 0 "w" "new" true
    (by decide) (by decide) rfl
    (by intro p hp; cases hp)
    (by refine ⟨?_, ?_, ?_, ?_⟩
        · simp [NodupK]
        · simp [NodupK]
        · intro p hp
          cases hp
        · intro p hp
          cases hp)
    (by decide) (by decide) (by decide)

end Aselenium
